import Mathlib

/-!
Shallow embedding of `src/agent/mongo/mongo.go` (package `mongo` of the juju
repository): the convergence engine that installs, starts and replica-set
bootstraps the node-local mongo database.

The file embeds, from the source:
  * the constants `maxFiles`, `maxProcs`, `replicaSetName`,
    `oldMongoServiceName`, `JujuMongodPath`, `mongoScriptVersion`;
  * `makeServiceName`, `mongoUpstartService`, `MongodPath`,
    `makeJournalDirs`, `removeOldMongoServices`, `initiateReplicaSet`,
    `ensureMongoServer`, `RemoveService`.

External collaborators (the upstart process supervisor from
`launchpad.net/juju-core/upstart`, the replica-set client from
`launchpad.net/juju-core/replicaset`, the mgo driver and the OS) are not under
`src/`; their observable behaviour is modelled from the spec (sections 4 and 6)
as an oracle environment `Env` for the outcomes of the external calls and an
explicit world state `World` (supervisor state, filesystem, remote replica-set
presence).  Every external call an execution performs is recorded, in program
order, in a trace of `Op` values, so that temporal claims ("no initiate is
attempted after a failed install") become statements about the trace.

Errors are Go `error` values carrying a message; they are embedded as
`String`, and `fmt.Errorf` wrapping becomes string concatenation with the
exact format text of the source.
-/

namespace Mongo

/-! ## Constants (mongo.go lines 19-33, 190-193) -/

def maxFiles : Nat := 65000

def maxProcs : Nat := 20000

def replicaSetName : String := "juju"

def oldMongoServiceName : String := "juju-db"

/-- Default path to the juju-specific mongod (mongo.go line 32). -/
def JujuMongodPath : String := "/usr/lib/juju/bin/mongod"

/-- Version of the generated upstart script (mongo.go line 193). -/
def mongoScriptVersion : Nat := 2

/-! ## Filesystem model

Only what `makeJournalDirs` touches is tracked: created directories with their
permission bits, and regular files with permission bits and byte content.
Byte content is a `List Nat` (one entry per byte).  Association-list order:
the most recently written file is at the head. -/

structure File where
  perm : Nat
  data : List Nat
deriving DecidableEq

structure Fs where
  dirs : List (String × Nat)
  files : List (String × File)
deriving DecidableEq

def Fs.hasDir (fs : Fs) (p : String) : Bool :=
  fs.dirs.any (fun kv => kv.1 == p)

/-- `os.MkdirAll`: creates the directory with the given permission bits if it
does not exist; an existing directory is left untouched (permissions are not
rewritten).  Intermediate parents are elided from the model. -/
def Fs.mkdirAll (fs : Fs) (p : String) (perm : Nat) : Fs :=
  if fs.hasDir p then fs else { fs with dirs := (p, perm) :: fs.dirs }

def Fs.getFile (fs : Fs) (p : String) : Option File :=
  (fs.files.find? (fun kv => kv.1 == p)).map (·.2)

def Fs.setFile (fs : Fs) (p : String) (f : File) : Fs :=
  { fs with files := (p, f) :: fs.files.eraseP (fun kv => kv.1 == p) }

/-! ## Supervisor / cluster world state

Modelled from the spec: the upstart supervisor tracks, per service name,
whether a definition is installed and whether the service is running
(spec section 6, "Process supervisor contract"); the remote database cluster
either has a replica-set configuration or has never been initiated
(spec section 3, "ReplicaSetConfig"). -/

structure World where
  installed : List String
  running : List String
  rsConfigured : Bool
  fs : Fs
deriving DecidableEq

/-! ## Oracle environment

Each fallible external call gets an oracle deciding its outcome: `none` means
the call succeeds, `some e` means it fails with error message `e`.  `writeRes`
gives, per file name and chunk index, the outcome of the corresponding
`f.Write(zeroes)` call: the byte count actually written, or an error. -/

inductive WriteRes where
  | ok (n : Nat)
  | fail (msg : String)
deriving DecidableEq

structure Env where
  stopRemoveErr : String → Option String
  installErr : String → Option String
  startErr : String → Option String
  mkdirErr : String → Option String
  openErr : String → Option String
  writeRes : String → Nat → WriteRes
  dialErr : Option String
  configErr : Option String
  initiateErr : Option String
  jujuMongodExists : Bool
  lookPathMongod : Option String

/-! ## Operation trace -/

inductive Op where
  | stopAndRemove (name : String)
  | install (name : String)
  | start (name : String)
  | mkdir (path : String)
  | openFile (path : String)
  | write (path : String)
  | dial
  | currentConfig
  | initiate (addr : String) (rs : String)
deriving DecidableEq

/-- Go's `%q` verb: the string in double quotes (escaping elided; no argument
in this program contains a quote). -/
def goQuote (s : String) : String := "\"" ++ s ++ "\""

/-- A single-quote character, for shell quoting. -/
def sq : String := "\x27"

/-- Modelled from the spec: `utils.ShQuote` (from `launchpad.net/juju-core/utils`,
not under src/) shell-quotes the TLS key file path that section 6 says appears
on the command line; modelled as POSIX single-quote wrapping. -/
def shQuote (s : String) : String := sq ++ s ++ sq

/-! ## makeServiceName (mongo.go lines 180-182) -/

def makeServiceName (version : Nat) : String :=
  "juju-db-v" ++ toString version

/-! ## mongoUpstartService (mongo.go lines 195-223)

The upstart `Conf` structure, restricted to the fields the source sets.  The
Go function also returns an `error` that is always `nil`, so the embedding
returns the configuration directly. -/

structure Conf where
  name : String
  desc : String
  limits : List (String × String)
  cmd : String
deriving DecidableEq

def mongoUpstartService (name dataDir dbDir : String) (port : Nat) : Conf :=
  let keyFile := dataDir ++ "/server.pem"
  { name := name
    desc := "juju state database"
    limits := [("nofile", toString maxFiles ++ " " ++ toString maxFiles),
               ("nproc", toString maxProcs ++ " " ++ toString maxProcs)]
    cmd := "/usr/bin/mongod" ++
      " --auth" ++
      " --dbpath=" ++ dbDir ++
      " --sslOnNormalPorts" ++
      " --sslPEMKeyFile " ++ shQuote keyFile ++
      " --sslPEMKeyPassword ignored" ++
      " --bind_ip 0.0.0.0" ++
      " --port " ++ toString port ++
      " --noprealloc" ++
      " --syslog" ++
      " --smallfiles" ++
      " --replSet " ++ replicaSetName }

/-! ## MongodPath (mongo.go lines 35-48) -/

def MongodPath (env : Env) : Except String String :=
  if env.jujuMongodExists then Except.ok JujuMongodPath
  else
    match env.lookPathMongod with
    | some p => Except.ok p
    | none => Except.error "mongod not found in path"

/-! ## Supervisor operations

Modelled from the spec (section 6): `StopAndRemove` on a service that is
neither installed nor running is a successful no-op; otherwise it asks the
supervisor to stop the service and delete its definition, which may fail.  On
success the name is gone from both the installed and the running sets. -/

def stopAndRemove (env : Env) (name : String) (w : World) :
    Except String Unit × World × List Op :=
  if w.installed.contains name || w.running.contains name then
    match env.stopRemoveErr name with
    | some e => (Except.error e, w, [Op.stopAndRemove name])
    | none =>
        (Except.ok (),
         { w with installed := w.installed.filter (fun s => !(s == name)),
                  running := w.running.filter (fun s => !(s == name)) },
         [Op.stopAndRemove name])
  else
    (Except.ok (), w, [Op.stopAndRemove name])

/-! ## removeOldMongoServices (mongo.go lines 160-178) -/

def removeOldLoop (env : Env) (vs : List Nat) (w : World) :
    Except String Unit × World × List Op :=
  match vs with
  | [] => (Except.ok (), w, [])
  | v :: rest =>
    match stopAndRemove env (makeServiceName v) w with
    | (Except.error e, w1, t1) => (Except.error e, w1, t1)
    | (Except.ok _, w1, t1) =>
      match removeOldLoop env rest w1 with
      | (r2, w2, t2) => (r2, w2, t1 ++ t2)

def removeOldMongoServices (env : Env) (curVersion : Nat) (w : World) :
    Except String Unit × World × List Op :=
  match stopAndRemove env oldMongoServiceName w with
  | (Except.error e, w1, t1) => (Except.error e, w1, t1)
  | (Except.ok _, w1, t1) =>
    match removeOldLoop env (List.range' 2 (curVersion - 2)) w1 with
    | (r2, w2, t2) => (r2, w2, t1 ++ t2)

/-! ## makeJournalDirs (mongo.go lines 131-158) -/

/-- The 64 KiB zero buffer written on every chunk (mongo.go line 140). -/
def zeroes : List Nat := List.replicate (64 * 1024) 0

/-- The inner write loop of `makeJournalDirs` (mongo.go lines 149-155): write
the `zeroes` buffer until at least `1024*1024` bytes have been reported
written.  The source loop diverges if the writer keeps reporting progress-free
success; the embedding spends one unit of fuel per iteration and turns fuel
exhaustion into an error, which is unreachable whenever every successful write
reports at least one byte.  Returns the final file content, the byte count
`total`, and the write trace. -/
def writeLoop (env : Env) (fname : String) :
    Nat → Nat → Nat → List Nat →
    Except String Unit × List Nat × Nat × List Op
  | 0, _, total, data => (Except.error "write loop made no progress", data, total, [])
  | fuel + 1, idx, total, data =>
    if total < 1024 * 1024 then
      match env.writeRes fname idx with
      | WriteRes.fail e =>
          (Except.error ("failed to write to mongo prealloc file " ++
             goQuote fname ++ ": " ++ e), data, total, [Op.write fname])
      | WriteRes.ok n =>
        match writeLoop env fname fuel (idx + 1) (total + n) (data ++ zeroes.take n) with
        | (r, data1, total1, t) => (r, data1, total1, Op.write fname :: t)
    else
      (Except.ok (), data, total, [])

/-- One iteration of the outer loop of `makeJournalDirs` (mongo.go lines
141-156): open `journalDir/prealloc.x` with `O_WRONLY|O_CREATE|O_TRUNC` and
permission `0700`, then run the write loop.  Opening an existing file
truncates it but keeps its permission bits; a failed write leaves the bytes
written so far in place (no rollback, spec section 4.1). -/
def preallocFile (env : Env) (journalDir : String) (x : Nat) (fs : Fs) :
    Except String Unit × Fs × List Op :=
  let filename := journalDir ++ "/prealloc." ++ toString x
  match env.openErr filename with
  | some e =>
      (Except.error ("failed to open mongo prealloc file " ++
         goQuote filename ++ ": " ++ e), fs, [Op.openFile filename])
  | none =>
    let f0 : File :=
      match fs.getFile filename with
      | some f => { f with data := [] }
      | none => { perm := 0o700, data := [] }
    match writeLoop env filename (1024 * 1024 + 1) 0 0 [] with
    | (r, data, _, t) =>
        (r, fs.setFile filename { f0 with data := data }, Op.openFile filename :: t)

def preallocLoop (env : Env) (journalDir : String) :
    List Nat → Fs → Except String Unit × Fs × List Op
  | [], fs => (Except.ok (), fs, [])
  | x :: rest, fs =>
    match preallocFile env journalDir x fs with
    | (Except.error e, fs1, t1) => (Except.error e, fs1, t1)
    | (Except.ok _, fs1, t1) =>
      match preallocLoop env journalDir rest fs1 with
      | (r2, fs2, t2) => (r2, fs2, t1 ++ t2)

def makeJournalDirs (env : Env) (dir : String) (fs : Fs) :
    Except String Unit × Fs × List Op :=
  let journalDir := dir ++ "/journal"
  match env.mkdirErr journalDir with
  | some e => (Except.error e, fs, [Op.mkdir journalDir])
  | none =>
    match preallocLoop env journalDir [0, 1, 2] (fs.mkdirAll journalDir 0o700) with
    | (r, fs2, t) => (r, fs2, Op.mkdir journalDir :: t)

/-! ## initiateReplicaSet (mongo.go lines 100-129)

`mgo.DialWithInfo`, `replicaset.CurrentConfig` and `replicaset.Initiate` are
outside src/; modelled from the spec (section 6, "Database cluster contract"):
the dial either succeeds or fails per the oracle; the configuration query
either fails per the oracle, or reports the configuration when the cluster has
one and not-found (`mgo.ErrNotFound`) when it has never been initiated; a
successful initiate establishes the configuration. -/

def initiateReplicaSet (env : Env) (address : String) (port : Nat) (w : World) :
    Except String Unit × World × List Op :=
  match env.dialErr with
  | some e =>
      (Except.error ("can\x27t dial mongo to initiate replicaset: " ++ e), w, [Op.dial])
  | none =>
    match env.configErr with
    | some e =>
        (Except.error ("error getting replicaset config: " ++ e), w,
         [Op.dial, Op.currentConfig])
    | none =>
      if w.rsConfigured then
        (Except.ok (), w, [Op.dial, Op.currentConfig])
      else
        let addr := address ++ ":" ++ toString port
        match env.initiateErr with
        | some e =>
            (Except.error ("error from mongo initiate: " ++ e), w,
             [Op.dial, Op.currentConfig, Op.initiate addr replicaSetName])
        | none =>
            (Except.ok (), { w with rsConfigured := true },
             [Op.dial, Op.currentConfig, Op.initiate addr replicaSetName])

/-! ## ensureMongoServer (mongo.go lines 59-98)

`service.Installed()`, `service.Install()`, `service.Running()` and
`service.Start()` are upstart supervisor calls outside src/; modelled from the
spec (section 6): `Installed` consults the supervisor's installed set,
`Running` the running set, a successful `Install` adds the definition, a
successful `Start` marks the service running. -/

/-- The install step of `ensureMongoServer` (mongo.go lines 74-84): when the
current definition is not yet installed, first create the journal directories,
then ask the supervisor to install the definition. -/
def installPhase (env : Env) (name dbDir : String) (w : World) :
    Except String Unit × World × List Op :=
  if !(w.installed.contains name) then
    match makeJournalDirs env dbDir w.fs with
    | (Except.error e, fs2, tj) =>
        (Except.error ("Error creating journal directories: " ++ e),
         { w with fs := fs2 }, tj)
    | (Except.ok _, fs2, tj) =>
      match env.installErr name with
      | some e =>
          (Except.error ("failed to install mongo service " ++
             goQuote name ++ ": " ++ e),
           { w with fs := fs2 }, tj ++ [Op.install name])
      | none =>
          (Except.ok (),
           { w with fs := fs2, installed := name :: w.installed },
           tj ++ [Op.install name])
  else (Except.ok (), w, [])

/-- The start step of `ensureMongoServer` (mongo.go lines 86-91): start the
service unless it is already running. -/
def startPhase (env : Env) (name : String) (w : World) :
    Except String Unit × World × List Op :=
  if !(w.running.contains name) then
    match env.startErr name with
    | some e =>
        (Except.error ("failed to start " ++ goQuote name ++ " service: " ++ e),
         w, [Op.start name])
    | none => (Except.ok (), { w with running := name :: w.running }, [Op.start name])
  else (Except.ok (), w, [])

def ensureMongoServer (env : Env) (address dataDir : String) (port : Nat) (w : World) :
    Except String Unit × World × List Op :=
  let dbDir := dataDir ++ "/db"
  let name := makeServiceName mongoScriptVersion
  match removeOldMongoServices env mongoScriptVersion w with
  | (Except.error e, w1, t1) => (Except.error e, w1, t1)
  | (Except.ok _, w1, t1) =>
    let service := mongoUpstartService name dataDir dbDir port
    match installPhase env service.name dbDir w1 with
    | (Except.error e, w2, t2) => (Except.error e, w2, t1 ++ t2)
    | (Except.ok _, w2, t2) =>
      match startPhase env name w2 with
      | (Except.error e, w3, t3) => (Except.error e, w3, t1 ++ t2 ++ t3)
      | (Except.ok _, w3, t3) =>
        match initiateReplicaSet env address port w3 with
        | (Except.error e, w4, t4) =>
            (Except.error ("failed to initiate mongo replicaset: " ++ e),
             w4, t1 ++ t2 ++ t3 ++ t4)
        | (Except.ok _, w4, t4) => (Except.ok (), w4, t1 ++ t2 ++ t3 ++ t4)

/-! ## RemoveService (mongo.go lines 184-188) -/

def RemoveService (env : Env) (w : World) : Except String Unit × World × List Op :=
  stopAndRemove env (makeServiceName mongoScriptVersion) w

/-! ## Substring containment -/

/-- `pat` occurs as a contiguous substring of `s`. -/
def strHas (s pat : String) : Prop := ∃ a b, s = a ++ pat ++ b

/-- Right-associated decomposition of the generated command line. -/
theorem cmd_decomp (name dataDir dbDir : String) (port : Nat) :
    (mongoUpstartService name dataDir dbDir port).cmd =
      "/usr/bin/mongod --auth --dbpath=" ++ (dbDir ++
      (" --sslOnNormalPorts --sslPEMKeyFile " ++
      (shQuote (dataDir ++ "/server.pem") ++
      (" --sslPEMKeyPassword ignored --bind_ip 0.0.0.0 --port " ++
      (toString port ++
      (" --noprealloc --syslog --smallfiles --replSet " ++ replicaSetName)))))) := by
  simp [mongoUpstartService, String.append_assoc]

/-! ## Shared concrete instances used by the witnesses -/

/-- Oracle on which every external call succeeds and every chunk write reports
the full 64 KiB buffer written. -/
def envAll : Env :=
  { stopRemoveErr := fun _ => none, installErr := fun _ => none,
    startErr := fun _ => none, mkdirErr := fun _ => none,
    openErr := fun _ => none, writeRes := fun _ _ => WriteRes.ok 65536,
    dialErr := none, configErr := none, initiateErr := none,
    jujuMongodExists := true, lookPathMongod := none }

/-- A pristine node: nothing installed, nothing running, empty filesystem,
replica set never initiated. -/
def wFresh : World :=
  { installed := [], running := [], rsConfigured := false,
    fs := { dirs := [], files := [] } }

/-- A fully converged node: current service installed and running, replica
set configured. -/
def wConv : World :=
  { installed := ["juju-db-v2"], running := ["juju-db-v2"], rsConfigured := true,
    fs := { dirs := [], files := [] } }

/-! ## C6: fixed invocation parameters of the generated command line -/

/-- C6: for every service name, data directory and port, the command line in
the definition built by `mongoUpstartService` contains all of the fixed
invocation parameters: `--auth`, `--sslOnNormalPorts` with the key file
`<dataDir>/server.pem`, `--bind_ip 0.0.0.0`, `--port <port>`, `--noprealloc`,
`--syslog`, `--smallfiles`, and `--replSet juju` (the single fixed replica-set
name). -/
theorem mongoUpstartService_cmd_flags (name dataDir dbDir : String) (port : Nat) :
    strHas (mongoUpstartService name dataDir dbDir port).cmd " --auth" ∧
    strHas (mongoUpstartService name dataDir dbDir port).cmd " --sslOnNormalPorts" ∧
    strHas (mongoUpstartService name dataDir dbDir port).cmd
      (" --sslPEMKeyFile " ++ shQuote (dataDir ++ "/server.pem")) ∧
    strHas (mongoUpstartService name dataDir dbDir port).cmd " --bind_ip 0.0.0.0" ∧
    strHas (mongoUpstartService name dataDir dbDir port).cmd (" --port " ++ toString port) ∧
    strHas (mongoUpstartService name dataDir dbDir port).cmd " --noprealloc" ∧
    strHas (mongoUpstartService name dataDir dbDir port).cmd " --syslog" ∧
    strHas (mongoUpstartService name dataDir dbDir port).cmd " --smallfiles" ∧
    strHas (mongoUpstartService name dataDir dbDir port).cmd
      (" --replSet " ++ replicaSetName) ∧
    replicaSetName = "juju" := by
  refine ⟨⟨"/usr/bin/mongod",
            " --dbpath=" ++ dbDir ++ " --sslOnNormalPorts" ++ " --sslPEMKeyFile " ++
            shQuote (dataDir ++ "/server.pem") ++ " --sslPEMKeyPassword ignored" ++
            " --bind_ip 0.0.0.0" ++ " --port " ++ toString port ++
            " --noprealloc" ++ " --syslog" ++ " --smallfiles" ++
            " --replSet " ++ replicaSetName, ?_⟩,
         ⟨"/usr/bin/mongod" ++ " --auth" ++ " --dbpath=" ++ dbDir,
            " --sslPEMKeyFile " ++ shQuote (dataDir ++ "/server.pem") ++
            " --sslPEMKeyPassword ignored" ++ " --bind_ip 0.0.0.0" ++
            " --port " ++ toString port ++ " --noprealloc" ++ " --syslog" ++
            " --smallfiles" ++ " --replSet " ++ replicaSetName, ?_⟩,
         ⟨"/usr/bin/mongod" ++ " --auth" ++ " --dbpath=" ++ dbDir ++ " --sslOnNormalPorts",
            " --sslPEMKeyPassword ignored" ++ " --bind_ip 0.0.0.0" ++
            " --port " ++ toString port ++ " --noprealloc" ++ " --syslog" ++
            " --smallfiles" ++ " --replSet " ++ replicaSetName, ?_⟩,
         ⟨"/usr/bin/mongod" ++ " --auth" ++ " --dbpath=" ++ dbDir ++ " --sslOnNormalPorts" ++
            " --sslPEMKeyFile " ++ shQuote (dataDir ++ "/server.pem") ++
            " --sslPEMKeyPassword ignored",
            " --port " ++ toString port ++ " --noprealloc" ++ " --syslog" ++
            " --smallfiles" ++ " --replSet " ++ replicaSetName, ?_⟩,
         ⟨"/usr/bin/mongod" ++ " --auth" ++ " --dbpath=" ++ dbDir ++ " --sslOnNormalPorts" ++
            " --sslPEMKeyFile " ++ shQuote (dataDir ++ "/server.pem") ++
            " --sslPEMKeyPassword ignored" ++ " --bind_ip 0.0.0.0",
            " --noprealloc" ++ " --syslog" ++ " --smallfiles" ++
            " --replSet " ++ replicaSetName, ?_⟩,
         ⟨"/usr/bin/mongod" ++ " --auth" ++ " --dbpath=" ++ dbDir ++ " --sslOnNormalPorts" ++
            " --sslPEMKeyFile " ++ shQuote (dataDir ++ "/server.pem") ++
            " --sslPEMKeyPassword ignored" ++ " --bind_ip 0.0.0.0" ++
            " --port " ++ toString port,
            " --syslog" ++ " --smallfiles" ++ " --replSet " ++ replicaSetName, ?_⟩,
         ⟨"/usr/bin/mongod" ++ " --auth" ++ " --dbpath=" ++ dbDir ++ " --sslOnNormalPorts" ++
            " --sslPEMKeyFile " ++ shQuote (dataDir ++ "/server.pem") ++
            " --sslPEMKeyPassword ignored" ++ " --bind_ip 0.0.0.0" ++
            " --port " ++ toString port ++ " --noprealloc",
            " --smallfiles" ++ " --replSet " ++ replicaSetName, ?_⟩,
         ⟨"/usr/bin/mongod" ++ " --auth" ++ " --dbpath=" ++ dbDir ++ " --sslOnNormalPorts" ++
            " --sslPEMKeyFile " ++ shQuote (dataDir ++ "/server.pem") ++
            " --sslPEMKeyPassword ignored" ++ " --bind_ip 0.0.0.0" ++
            " --port " ++ toString port ++ " --noprealloc" ++ " --syslog",
            " --replSet " ++ replicaSetName, ?_⟩,
         ⟨"/usr/bin/mongod" ++ " --auth" ++ " --dbpath=" ++ dbDir ++ " --sslOnNormalPorts" ++
            " --sslPEMKeyFile " ++ shQuote (dataDir ++ "/server.pem") ++
            " --sslPEMKeyPassword ignored" ++ " --bind_ip 0.0.0.0" ++
            " --port " ++ toString port ++ " --noprealloc" ++ " --syslog" ++
            " --smallfiles", "", ?_⟩,
         rfl⟩ <;>
    simp only [mongoUpstartService, String.append_assoc, String.append_empty]

/-! ## C9: the builder is pure and deterministic -/

/-- C9: `mongoUpstartService` is deterministic: identical inputs yield
identical definitions, in particular the same command line, the same resource
limits and the same description.  Purity is structural: the embedded function
consumes neither the oracle environment nor the world state and records no
operation in any trace (its Lean type mentions neither `Env` nor `World`). -/
theorem mongoUpstartService_deterministic (n d dd : String) (p : Nat)
    (n2 d2 dd2 : String) (p2 : Nat)
    (hn : n = n2) (hd : d = d2) (hdd : dd = dd2) (hp : p = p2) :
    mongoUpstartService n d dd p = mongoUpstartService n2 d2 dd2 p2 ∧
    (mongoUpstartService n d dd p).cmd = (mongoUpstartService n2 d2 dd2 p2).cmd ∧
    (mongoUpstartService n d dd p).limits = (mongoUpstartService n2 d2 dd2 p2).limits ∧
    (mongoUpstartService n d dd p).desc = (mongoUpstartService n2 d2 dd2 p2).desc := by
  subst hn; subst hd; subst hdd; subst hp
  exact ⟨rfl, rfl, rfl, rfl⟩

theorem mongoUpstartService_deterministic_witness :
    mongoUpstartService "juju-db-v2" "/var/lib/x" "/var/lib/x/db" 37017 =
      mongoUpstartService "juju-db-v2" "/var/lib/x" "/var/lib/x/db" 37017 :=
  (mongoUpstartService_deterministic "juju-db-v2" "/var/lib/x" "/var/lib/x/db" 37017
    "juju-db-v2" "/var/lib/x" "/var/lib/x/db" 37017 rfl rfl rfl rfl).1

/-! ## C10: the builder hardcodes /usr/bin/mongod and never consults MongodPath -/

/-- Replace only the two oracle fields that feed `MongodPath` (the juju-bundled
binary's existence and the `PATH` lookup result). -/
def Env.withMongodFields (e : Env) (b : Bool) (lp : Option String) : Env :=
  { e with jujuMongodExists := b, lookPathMongod := lp }

theorem wmf_stopRemoveErr (e : Env) (b : Bool) (lp : Option String) :
    (e.withMongodFields b lp).stopRemoveErr = e.stopRemoveErr := rfl

theorem wmf_installErr (e : Env) (b : Bool) (lp : Option String) :
    (e.withMongodFields b lp).installErr = e.installErr := rfl

theorem wmf_startErr (e : Env) (b : Bool) (lp : Option String) :
    (e.withMongodFields b lp).startErr = e.startErr := rfl

theorem wmf_mkdirErr (e : Env) (b : Bool) (lp : Option String) :
    (e.withMongodFields b lp).mkdirErr = e.mkdirErr := rfl

theorem wmf_openErr (e : Env) (b : Bool) (lp : Option String) :
    (e.withMongodFields b lp).openErr = e.openErr := rfl

theorem wmf_writeRes (e : Env) (b : Bool) (lp : Option String) :
    (e.withMongodFields b lp).writeRes = e.writeRes := rfl

theorem wmf_dialErr (e : Env) (b : Bool) (lp : Option String) :
    (e.withMongodFields b lp).dialErr = e.dialErr := rfl

theorem wmf_configErr (e : Env) (b : Bool) (lp : Option String) :
    (e.withMongodFields b lp).configErr = e.configErr := rfl

theorem wmf_initiateErr (e : Env) (b : Bool) (lp : Option String) :
    (e.withMongodFields b lp).initiateErr = e.initiateErr := rfl

theorem stopAndRemove_wmf (e : Env) (b : Bool) (lp : Option String) (name : String) (w : World) :
    stopAndRemove (e.withMongodFields b lp) name w = stopAndRemove e name w := by
  simp only [stopAndRemove, wmf_stopRemoveErr]

theorem removeOldLoop_wmf (e : Env) (b : Bool) (lp : Option String) :
    ∀ (vs : List Nat) (w : World),
      removeOldLoop (e.withMongodFields b lp) vs w = removeOldLoop e vs w := by
  intro vs
  induction vs with
  | nil => intro w; rfl
  | cons v rest ih => intro w; simp only [removeOldLoop, stopAndRemove_wmf, ih]

theorem removeOldMongoServices_wmf (e : Env) (b : Bool) (lp : Option String)
    (cv : Nat) (w : World) :
    removeOldMongoServices (e.withMongodFields b lp) cv w = removeOldMongoServices e cv w := by
  simp only [removeOldMongoServices, stopAndRemove_wmf, removeOldLoop_wmf]

theorem writeLoop_wmf (e : Env) (b : Bool) (lp : Option String) (fname : String) :
    ∀ (fuel idx total : Nat) (data : List Nat),
      writeLoop (e.withMongodFields b lp) fname fuel idx total data =
        writeLoop e fname fuel idx total data := by
  intro fuel
  induction fuel with
  | zero => intro idx total data; rfl
  | succ fuel ih => intro idx total data; simp only [writeLoop, wmf_writeRes, ih]

theorem preallocFile_wmf (e : Env) (b : Bool) (lp : Option String)
    (jd : String) (x : Nat) (fs : Fs) :
    preallocFile (e.withMongodFields b lp) jd x fs = preallocFile e jd x fs := by
  simp only [preallocFile, wmf_openErr, writeLoop_wmf]

theorem preallocLoop_wmf (e : Env) (b : Bool) (lp : Option String) (jd : String) :
    ∀ (vs : List Nat) (fs : Fs),
      preallocLoop (e.withMongodFields b lp) jd vs fs = preallocLoop e jd vs fs := by
  intro vs
  induction vs with
  | nil => intro fs; rfl
  | cons v rest ih => intro fs; simp only [preallocLoop, preallocFile_wmf, ih]

theorem makeJournalDirs_wmf (e : Env) (b : Bool) (lp : Option String)
    (dir : String) (fs : Fs) :
    makeJournalDirs (e.withMongodFields b lp) dir fs = makeJournalDirs e dir fs := by
  simp only [makeJournalDirs, wmf_mkdirErr, preallocLoop_wmf]

theorem initiateReplicaSet_wmf (e : Env) (b : Bool) (lp : Option String)
    (a : String) (p : Nat) (w : World) :
    initiateReplicaSet (e.withMongodFields b lp) a p w = initiateReplicaSet e a p w := by
  simp only [initiateReplicaSet, wmf_dialErr, wmf_configErr, wmf_initiateErr]

theorem installPhase_wmf (e : Env) (b : Bool) (lp : Option String)
    (name dbDir : String) (w : World) :
    installPhase (e.withMongodFields b lp) name dbDir w = installPhase e name dbDir w := by
  simp only [installPhase, makeJournalDirs_wmf, wmf_installErr]

theorem startPhase_wmf (e : Env) (b : Bool) (lp : Option String)
    (name : String) (w : World) :
    startPhase (e.withMongodFields b lp) name w = startPhase e name w := by
  simp only [startPhase, wmf_startErr]

theorem ensureMongoServer_wmf (e : Env) (b : Bool) (lp : Option String)
    (a d : String) (p : Nat) (w : World) :
    ensureMongoServer (e.withMongodFields b lp) a d p w = ensureMongoServer e a d p w := by
  simp only [ensureMongoServer, removeOldMongoServices_wmf, installPhase_wmf,
    startPhase_wmf, initiateReplicaSet_wmf]

/-- C10: the command line produced by `mongoUpstartService` always begins with
the hardcoded path `/usr/bin/mongod`; neither the builder nor
`ensureMongoServer` consults the `MongodPath` resolution (changing the oracle
fields that decide `MongodPath` changes nothing about a convergence run); and
`MongodPath` itself would prefer the juju-bundled `/usr/lib/juju/bin/mongod`
whenever it exists, so the installed service runs the fixed system path
regardless of what resolution would report. -/
theorem mongod_fixed_path :
    (∀ name dataDir dbDir : String, ∀ port : Nat, ∃ rest,
       (mongoUpstartService name dataDir dbDir port).cmd = "/usr/bin/mongod" ++ rest) ∧
    (∀ (e : Env) (b : Bool) (lp : Option String) (a d : String) (p : Nat) (w : World),
       ensureMongoServer (e.withMongodFields b lp) a d p w = ensureMongoServer e a d p w) ∧
    (∀ e : Env, e.jujuMongodExists = true → MongodPath e = Except.ok JujuMongodPath) := by
  refine ⟨?_, ?_, ?_⟩
  · intro name dataDir dbDir port
    refine ⟨" --auth" ++ " --dbpath=" ++ dbDir ++ " --sslOnNormalPorts" ++
      " --sslPEMKeyFile " ++ shQuote (dataDir ++ "/server.pem") ++
      " --sslPEMKeyPassword ignored" ++ " --bind_ip 0.0.0.0" ++
      " --port " ++ toString port ++ " --noprealloc" ++ " --syslog" ++
      " --smallfiles" ++ " --replSet " ++ replicaSetName, ?_⟩
    simp only [mongoUpstartService, String.append_assoc]
  · intro e b lp a d p w
    exact ensureMongoServer_wmf e b lp a d p w
  · intro e h
    simp [MongodPath, h]

theorem mongod_fixed_path_witness :
    MongodPath envAll = Except.ok JujuMongodPath :=
  mongod_fixed_path.2.2 envAll rfl

/-! ## C1: initiate is issued if and only if the config query reports not-found -/

/-- C1: for every dial oracle, address and port, `initiateReplicaSet` issues
the initiate operation if and only if the configuration query reports
not-found: an existing configuration yields success with no initiate; a query
failure other than not-found yields that error (wrapped with the source's
context text) with no initiate; not-found yields exactly one initiate naming
this node (`address:port`) as seed of the fixed replica set. -/
theorem initiateReplicaSet_initiates_iff_notFound
    (env : Env) (address : String) (port : Nat) (w : World) :
    (env.dialErr = none → env.configErr = none → w.rsConfigured = true →
      initiateReplicaSet env address port w =
        (Except.ok (), w, [Op.dial, Op.currentConfig])) ∧
    (∀ e, env.dialErr = none → env.configErr = some e →
      initiateReplicaSet env address port w =
        (Except.error ("error getting replicaset config: " ++ e), w,
         [Op.dial, Op.currentConfig])) ∧
    (env.dialErr = none → env.configErr = none → w.rsConfigured = false →
      (initiateReplicaSet env address port w).2.2.count
        (Op.initiate (address ++ ":" ++ toString port) replicaSetName) = 1) ∧
    ((∃ a r, Op.initiate a r ∈ (initiateReplicaSet env address port w).2.2) ↔
      env.dialErr = none ∧ env.configErr = none ∧ w.rsConfigured = false) := by
  refine ⟨?_, ?_, ?_, ?_⟩
  · intro h1 h2 h3; simp [initiateReplicaSet, h1, h2, h3]
  · intro e h1 h2; simp [initiateReplicaSet, h1, h2]
  · intro h1 h2 h3
    cases hi : env.initiateErr <;>
      simp [initiateReplicaSet, h1, h2, h3, hi, List.count_cons]
  · constructor
    · rintro ⟨a, r, hmem⟩
      cases hd : env.dialErr <;> cases hc : env.configErr <;>
        cases hr : w.rsConfigured <;> cases hi : env.initiateErr <;>
        simp [initiateReplicaSet, hd, hc, hr, hi] at hmem ⊢
    · rintro ⟨h1, h2, h3⟩
      cases hi : env.initiateErr <;>
        exact ⟨address ++ ":" ++ toString port, replicaSetName,
          by simp [initiateReplicaSet, h1, h2, h3, hi]⟩

theorem initiateReplicaSet_initiates_iff_notFound_witness :
    initiateReplicaSet envAll "10.0.0.1" 37017 wConv =
      (Except.ok (), wConv, [Op.dial, Op.currentConfig]) :=
  (initiateReplicaSet_initiates_iff_notFound envAll "10.0.0.1" 37017 wConv).1 rfl rfl rfl

/-! ## Structural lemmas about the supervisor removal operations -/

theorem stopAndRemove_trace (env : Env) (name : String) (w : World) :
    (stopAndRemove env name w).2.2 = [Op.stopAndRemove name] := by
  unfold stopAndRemove
  split
  · split <;> rfl
  · rfl

theorem stopAndRemove_fs (env : Env) (name : String) (w : World) :
    (stopAndRemove env name w).2.1.fs = w.fs := by
  unfold stopAndRemove
  split
  · split <;> rfl
  · rfl

theorem stopAndRemove_rs (env : Env) (name : String) (w : World) :
    (stopAndRemove env name w).2.1.rsConfigured = w.rsConfigured := by
  unfold stopAndRemove
  split
  · split <;> rfl
  · rfl

theorem stopAndRemove_mem_iff (env : Env) (name : String) (w : World)
    (n : String) (h : n ≠ name) :
    (n ∈ (stopAndRemove env name w).2.1.installed ↔ n ∈ w.installed) ∧
    (n ∈ (stopAndRemove env name w).2.1.running ↔ n ∈ w.running) := by
  unfold stopAndRemove
  split
  · split
    · exact ⟨Iff.rfl, Iff.rfl⟩
    · simp [List.mem_filter, h]
  · exact ⟨Iff.rfl, Iff.rfl⟩

theorem stopAndRemove_not_mem (env : Env) (name : String) (w : World)
    (n : String) (h : n ∉ w.installed) :
    n ∉ (stopAndRemove env name w).2.1.installed := by
  unfold stopAndRemove
  split
  · split
    · exact h
    · simp [List.mem_filter]
      intro hmem
      exact absurd hmem h
  · exact h

theorem stopAndRemove_ok_removed (env : Env) (name : String) (w w1 : World)
    (t : List Op) (h : stopAndRemove env name w = (Except.ok (), w1, t)) :
    name ∉ w1.installed := by
  unfold stopAndRemove at h
  split at h
  · split at h
    · simp at h
    · simp only [Prod.mk.injEq] at h
      obtain ⟨-, h2, -⟩ := h
      subst h2
      simp [List.mem_filter]
  · next hcond =>
    simp only [Prod.mk.injEq] at h
    obtain ⟨-, h2, -⟩ := h
    subst h2
    simp only [Bool.or_eq_true, not_or, Bool.not_eq_true] at hcond
    intro hmem
    have hiff : w.installed.contains name = true ↔ name ∈ w.installed := by
      simp [List.contains]
    have hc := hiff.mpr hmem
    rw [hcond.1] at hc
    cases hc

/-! ## removeOldMongoServices lemmas -/

theorem removeOldLoop_ok (env : Env) :
    ∀ (vs : List Nat) (w w1 : World) (T : List Op),
      removeOldLoop env vs w = (Except.ok (), w1, T) →
      (∀ n, n ∉ w.installed → n ∉ w1.installed) ∧
      (∀ v ∈ vs, makeServiceName v ∉ w1.installed) := by
  intro vs
  induction vs with
  | nil =>
    intro w w1 T h
    simp only [removeOldLoop, Prod.mk.injEq] at h
    obtain ⟨-, h2, -⟩ := h
    subst h2
    exact ⟨fun n hn => hn, by simp⟩
  | cons v rest ih =>
    intro w w1 T h
    unfold removeOldLoop at h
    rcases hsr : stopAndRemove env (makeServiceName v) w with ⟨r, wa, ta⟩
    rw [hsr] at h
    cases r with
    | error e => simp at h
    | ok u =>
      cases u
      dsimp only at h
      rcases hloop : removeOldLoop env rest wa with ⟨r2, wb, tb⟩
      rw [hloop] at h
      simp only [Prod.mk.injEq] at h
      obtain ⟨hr2, hw, ht⟩ := h
      subst hw
      subst ht
      subst hr2
      obtain ⟨ihPres, ihAll⟩ := ih wa wb tb hloop
      refine ⟨?_, ?_⟩
      · intro n hn
        have hnot := stopAndRemove_not_mem env (makeServiceName v) w n hn
        rw [hsr] at hnot
        exact ihPres n hnot
      · intro u hu
        rcases List.mem_cons.mp hu with rfl | hu2
        · have hrm := stopAndRemove_ok_removed env (makeServiceName u) w wa ta hsr
          exact ihPres _ hrm
        · exact ihAll u hu2

theorem removeOldLoop_trace (env : Env) :
    ∀ (vs : List Nat) (w : World),
      ∀ o ∈ (removeOldLoop env vs w).2.2, ∃ v ∈ vs, o = Op.stopAndRemove (makeServiceName v) := by
  intro vs
  induction vs with
  | nil => intro w o ho; simp [removeOldLoop] at ho
  | cons v rest ih =>
    intro w o ho
    unfold removeOldLoop at ho
    rcases hsr : stopAndRemove env (makeServiceName v) w with ⟨r, wa, ta⟩
    have hta : ta = [Op.stopAndRemove (makeServiceName v)] := by
      have := stopAndRemove_trace env (makeServiceName v) w
      rw [hsr] at this
      exact this
    rw [hsr] at ho
    cases r with
    | error e =>
      simp only at ho
      rw [hta] at ho
      simp at ho
      exact ⟨v, by simp, ho⟩
    | ok u =>
      simp only at ho
      rcases hloop : removeOldLoop env rest wa with ⟨r2, wb, tb⟩
      rw [hloop] at ho
      simp only [List.mem_append] at ho
      rcases ho with ho | ho
      · rw [hta] at ho
        simp at ho
        exact ⟨v, by simp, ho⟩
      · obtain ⟨u2, hu2, ho2⟩ := ih wa o (by rw [hloop]; exact ho)
        exact ⟨u2, by simp [hu2], ho2⟩

/-- C4: for any current version `N ≥ 2` and any prior set of installed
definitions, after a successful `removeOldMongoServices` pass no definition
named by the versioned scheme for a version in `[2, N)` remains and the
specially-named legacy definition `juju-db` is absent; every removal the pass
requests targets either the legacy name or a versioned name in `[2, N)`; and
for current versions below 2 (before the versioned scheme began) the only
removal requested is the specially-named one. -/
theorem removeOldMongoServices_cleanup (env : Env) (N : Nat) (w w1 : World)
    (T : List Op) (hN : 2 ≤ N)
    (hs : removeOldMongoServices env N w = (Except.ok (), w1, T)) :
    oldMongoServiceName ∉ w1.installed ∧
    (∀ x, 2 ≤ x → x < N → makeServiceName x ∉ w1.installed) ∧
    (∀ o ∈ T, o = Op.stopAndRemove oldMongoServiceName ∨
       ∃ x, 2 ≤ x ∧ x < N ∧ o = Op.stopAndRemove (makeServiceName x)) ∧
    (∀ (M : Nat) (w2 : World), M < 2 →
       (removeOldMongoServices env M w2).2.2 = [Op.stopAndRemove oldMongoServiceName]) := by
  have hrange : ∀ x : Nat, x ∈ List.range' 2 (N - 2) ↔ 2 ≤ x ∧ x < N := by
    intro x
    rw [List.mem_range'_1]
    omega
  unfold removeOldMongoServices at hs
  rcases hsr : stopAndRemove env oldMongoServiceName w with ⟨r, wa, ta⟩
  rw [hsr] at hs
  have hta : ta = [Op.stopAndRemove oldMongoServiceName] := by
    have := stopAndRemove_trace env oldMongoServiceName w
    rw [hsr] at this
    exact this
  cases r with
  | error e => simp at hs
  | ok u =>
    cases u
    dsimp only at hs
    rcases hloop : removeOldLoop env (List.range' 2 (N - 2)) wa with ⟨r2, wb, tb⟩
    rw [hloop] at hs
    simp only [Prod.mk.injEq] at hs
    obtain ⟨hr2, hw, ht⟩ := hs
    subst hr2
    subst hw
    subst ht
    obtain ⟨ihPres, ihAll⟩ := removeOldLoop_ok env (List.range' 2 (N - 2)) wa wb tb hloop
    refine ⟨?_, ?_, ?_, ?_⟩
    · exact ihPres _ (stopAndRemove_ok_removed env oldMongoServiceName w wa ta hsr)
    · intro x h2 hx
      exact ihAll x ((hrange x).mpr ⟨h2, hx⟩)
    · intro o ho
      rcases List.mem_append.mp ho with ho | ho
      · rw [hta] at ho
        simp at ho
        exact Or.inl ho
      · obtain ⟨v, hv, ho2⟩ := removeOldLoop_trace env (List.range' 2 (N - 2)) wa o
          (by rw [hloop]; exact ho)
        obtain ⟨hv2, hvN⟩ := (hrange v).mp hv
        exact Or.inr ⟨v, hv2, hvN, ho2⟩
    · intro M w2 hM
      have h0 : M - 2 = 0 := by omega
      rcases hsr2 : stopAndRemove env oldMongoServiceName w2 with ⟨r3, wx, tx⟩
      have htx : tx = [Op.stopAndRemove oldMongoServiceName] := by
        have := stopAndRemove_trace env oldMongoServiceName w2
        rw [hsr2] at this
        exact this
      unfold removeOldMongoServices
      rw [h0, hsr2]
      cases r3 with
      | error e => simpa using htx
      | ok u =>
        cases u
        dsimp only
        simp [removeOldLoop, htx]

/-- Starting supervisor state for the cleanup witness: the legacy `juju-db`
definition, the version-2 and version-3 definitions, and an unrelated one. -/
def wC4 : World :=
  { installed := ["juju-db", "juju-db-v2", "juju-db-v3", "keep"], running := [],
    rsConfigured := false, fs := { dirs := [], files := [] } }

/-- Supervisor state after the cleanup witness run. -/
def wC4out : World :=
  { installed := ["keep"], running := [],
    rsConfigured := false, fs := { dirs := [], files := [] } }

def tC4 : List Op :=
  [Op.stopAndRemove "juju-db", Op.stopAndRemove "juju-db-v2",
   Op.stopAndRemove "juju-db-v3"]

theorem removeOldMongoServices_cleanup_witness :
    oldMongoServiceName ∉ wC4out.installed ∧ makeServiceName 3 ∉ wC4out.installed :=
  ⟨(removeOldMongoServices_cleanup envAll 4 wC4 wC4out tC4 (by decide) rfl).1,
   (removeOldMongoServices_cleanup envAll 4 wC4 wC4out tC4 (by decide) rfl).2.1 3
     (by decide) (by decide)⟩

/-! ## Lemmas about the convergence entry point -/

theorem contains_iff (l : List String) (a : String) : l.contains a = true ↔ a ∈ l := by
  simp [List.contains]

/-- For the current script version the legacy sweep reduces to the single
`StopAndRemove` of the pre-versioning name: the versioned loop is empty
because it covers `[2, mongoScriptVersion) = [2, 2)`. -/
theorem removeOld_current (env : Env) (w : World) :
    removeOldMongoServices env mongoScriptVersion w =
      stopAndRemove env oldMongoServiceName w := by
  show removeOldMongoServices env 2 w = _
  rcases hsr : stopAndRemove env oldMongoServiceName w with ⟨r, wa, ta⟩
  unfold removeOldMongoServices
  rw [hsr]
  cases r with
  | error e => rfl
  | ok u =>
    cases u
    dsimp only
    simp [removeOldLoop]

/-- Filesystem operations (the only kind the journal preallocator performs). -/
def Op.isFsOp : Op → Bool
  | Op.mkdir _ => true
  | Op.openFile _ => true
  | Op.write _ => true
  | _ => false

theorem writeLoop_trace_fsOp (env : Env) (f : String) :
    ∀ (fuel idx total : Nat) (data : List Nat),
      ∀ o ∈ (writeLoop env f fuel idx total data).2.2.2, o = Op.write f := by
  intro fuel
  induction fuel with
  | zero => intro idx total data o ho; simp [writeLoop] at ho
  | succ fuel ih =>
    intro idx total data o ho
    simp only [writeLoop] at ho
    split at ho
    · cases hw : env.writeRes f idx with
      | fail e => rw [hw] at ho; dsimp only at ho; simp at ho; exact ho
      | ok n =>
        rw [hw] at ho
        dsimp only at ho
        simp at ho
        rcases ho with rfl | ho
        · rfl
        · exact ih (idx + 1) (total + n) (data ++ zeroes.take n) o ho
    · simp at ho

theorem preallocFile_trace_fsOp (env : Env) (jd : String) (x : Nat) (fs : Fs) :
    ∀ o ∈ (preallocFile env jd x fs).2.2, o.isFsOp = true := by
  intro o ho
  unfold preallocFile at ho
  dsimp only at ho
  cases hop : env.openErr (jd ++ "/prealloc." ++ toString x) with
  | some e => rw [hop] at ho; simp at ho; rw [ho]; rfl
  | none =>
    rw [hop] at ho
    dsimp only at ho
    rcases hwl : writeLoop env (jd ++ "/prealloc." ++ toString x) (1024 * 1024 + 1) 0 0 []
      with ⟨r, d, t, tr⟩
    rw [hwl] at ho
    dsimp only at ho
    simp at ho
    rcases ho with rfl | ho
    · rfl
    · have := writeLoop_trace_fsOp env (jd ++ "/prealloc." ++ toString x)
        (1024 * 1024 + 1) 0 0 [] o (by rw [hwl]; exact ho)
      rw [this]; rfl

theorem preallocLoop_trace_fsOp (env : Env) (jd : String) :
    ∀ (vs : List Nat) (fs : Fs),
      ∀ o ∈ (preallocLoop env jd vs fs).2.2, o.isFsOp = true := by
  intro vs
  induction vs with
  | nil => intro fs o ho; simp [preallocLoop] at ho
  | cons v rest ih =>
    intro fs o ho
    unfold preallocLoop at ho
    rcases hpf : preallocFile env jd v fs with ⟨r, fs1, t1⟩
    rw [hpf] at ho
    cases r with
    | error e =>
      dsimp only at ho
      exact preallocFile_trace_fsOp env jd v fs o (by rw [hpf]; exact ho)
    | ok u =>
      cases u
      dsimp only at ho
      rcases hpl : preallocLoop env jd rest fs1 with ⟨r2, fs2, t2⟩
      rw [hpl] at ho
      simp only [List.mem_append] at ho
      rcases ho with ho | ho
      · exact preallocFile_trace_fsOp env jd v fs o (by rw [hpf]; exact ho)
      · exact ih fs1 o (by rw [hpl]; exact ho)

theorem makeJournalDirs_trace_fsOp (env : Env) (dir : String) (fs : Fs) :
    ∀ o ∈ (makeJournalDirs env dir fs).2.2, o.isFsOp = true := by
  intro o ho
  unfold makeJournalDirs at ho
  dsimp only at ho
  cases hmk : env.mkdirErr (dir ++ "/journal") with
  | some e => rw [hmk] at ho; simp at ho; rw [ho]; rfl
  | none =>
    rw [hmk] at ho
    dsimp only at ho
    rcases hpl : preallocLoop env (dir ++ "/journal") [0, 1, 2] (fs.mkdirAll (dir ++ "/journal") 0o700)
      with ⟨r, fs2, t⟩
    rw [hpl] at ho
    dsimp only at ho
    simp at ho
    rcases ho with rfl | ho
    · rfl
    · exact preallocLoop_trace_fsOp env (dir ++ "/journal") [0, 1, 2] _ o (by rw [hpl]; exact ho)

theorem initiateReplicaSet_trace_ops (env : Env) (a : String) (p : Nat) (w : World) :
    ∀ o ∈ (initiateReplicaSet env a p w).2.2,
      o = Op.dial ∨ o = Op.currentConfig ∨ ∃ ad r, o = Op.initiate ad r := by
  intro o ho
  unfold initiateReplicaSet at ho
  cases hd : env.dialErr with
  | some e => rw [hd] at ho; simp at ho; simp [ho]
  | none =>
    rw [hd] at ho
    cases hc : env.configErr with
    | some e => rw [hc] at ho; simp at ho; rcases ho with rfl | rfl <;> simp
    | none =>
      rw [hc] at ho
      dsimp only at ho
      split at ho
      · simp at ho; rcases ho with rfl | rfl <;> simp
      · cases hi : env.initiateErr with
        | some e =>
          rw [hi] at ho; simp at ho
          rcases ho with rfl | rfl | rfl <;> simp
        | none =>
          rw [hi] at ho; simp at ho
          rcases ho with rfl | rfl | rfl <;> simp

theorem initiateReplicaSet_preserves (env : Env) (a : String) (p : Nat) (w : World) :
    (initiateReplicaSet env a p w).2.1.installed = w.installed ∧
    (initiateReplicaSet env a p w).2.1.running = w.running ∧
    (initiateReplicaSet env a p w).2.1.fs = w.fs := by
  unfold initiateReplicaSet
  cases hd : env.dialErr with
  | some e => exact ⟨rfl, rfl, rfl⟩
  | none =>
    cases hc : env.configErr with
    | some e => exact ⟨rfl, rfl, rfl⟩
    | none =>
      dsimp only
      split
      · exact ⟨rfl, rfl, rfl⟩
      · cases hi : env.initiateErr with
        | some e => exact ⟨rfl, rfl, rfl⟩
        | none => exact ⟨rfl, rfl, rfl⟩

def Op.isInstall : Op → Bool
  | Op.install _ => true
  | _ => false

def Op.isStart : Op → Bool
  | Op.start _ => true
  | _ => false

def Op.isInitiate : Op → Bool
  | Op.initiate _ _ => true
  | _ => false

theorem installPhase_skip (env : Env) (name dbDir : String) (w : World)
    (h : w.installed.contains name = true) :
    installPhase env name dbDir w = (Except.ok (), w, []) := by
  unfold installPhase
  rw [h]
  rfl

theorem installPhase_trace_ops (env : Env) (name dbDir : String) (w : World) :
    ∀ o ∈ (installPhase env name dbDir w).2.2, o.isFsOp = true ∨ o = Op.install name := by
  intro o ho
  unfold installPhase at ho
  split at ho
  · rcases hj : makeJournalDirs env dbDir w.fs with ⟨rj, fs2, tj⟩
    rw [hj] at ho
    cases rj with
    | error e =>
      dsimp only at ho
      exact Or.inl (makeJournalDirs_trace_fsOp env dbDir w.fs o (by rw [hj]; exact ho))
    | ok u =>
      cases u
      dsimp only at ho
      cases hie : env.installErr name with
      | some e =>
        rw [hie] at ho
        simp at ho
        rcases ho with ho | rfl
        · exact Or.inl (makeJournalDirs_trace_fsOp env dbDir w.fs o (by rw [hj]; exact ho))
        · exact Or.inr rfl
      | none =>
        rw [hie] at ho
        simp at ho
        rcases ho with ho | rfl
        · exact Or.inl (makeJournalDirs_trace_fsOp env dbDir w.fs o (by rw [hj]; exact ho))
        · exact Or.inr rfl
  · simp at ho

theorem startPhase_trace_ops (env : Env) (name : String) (w : World) :
    ∀ o ∈ (startPhase env name w).2.2, o = Op.start name := by
  intro o ho
  unfold startPhase at ho
  split at ho
  · cases hse : env.startErr name with
    | some e => rw [hse] at ho; simp at ho; exact ho
    | none => rw [hse] at ho; simp at ho; exact ho
  · simp at ho

theorem startPhase_fs (env : Env) (name : String) (w : World) :
    (startPhase env name w).2.1.fs = w.fs := by
  unfold startPhase
  split
  · cases hse : env.startErr name with
    | some e => rfl
    | none => rfl
  · rfl

theorem startPhase_skip (env : Env) (name : String) (w : World)
    (h : w.running.contains name = true) :
    startPhase env name w = (Except.ok (), w, []) := by
  unfold startPhase
  rw [h]
  rfl

theorem initiateReplicaSet_dial_some (env : Env) (a : String) (p : Nat) (w : World)
    (e : String) (h : env.dialErr = some e) :
    initiateReplicaSet env a p w =
      (Except.error ("can\x27t dial mongo to initiate replicaset: " ++ e), w, [Op.dial]) := by
  simp [initiateReplicaSet, h]

theorem initiateReplicaSet_no_initiate_of_configured (env : Env) (a : String)
    (p : Nat) (w : World) (h : w.rsConfigured = true) :
    ∀ o ∈ (initiateReplicaSet env a p w).2.2, o = Op.dial ∨ o = Op.currentConfig := by
  intro o ho
  unfold initiateReplicaSet at ho
  cases hd : env.dialErr with
  | some e => rw [hd] at ho; simp at ho; simp [ho]
  | none =>
    rw [hd] at ho
    cases hc : env.configErr with
    | some e => rw [hc] at ho; simp at ho; rcases ho with rfl | rfl <;> simp
    | none =>
      rw [hc] at ho
      dsimp only at ho
      rw [if_pos h] at ho
      simp at ho
      rcases ho with rfl | rfl <;> simp

/-! ## C7: the journal preallocator runs only when the definition is absent -/

/-- C7: within `ensureMongoServer`, the journal preallocator is invoked only
when the current service definition is not yet installed: when the definition
with the current name is already installed, the execution performs no
filesystem operation at all (no journal directory creation, no preallocation
file open or write) and the filesystem is unchanged. -/
theorem ensureMongoServer_journal_only_when_not_installed
    (env : Env) (address dataDir : String) (port : Nat) (w : World)
    (h : makeServiceName mongoScriptVersion ∈ w.installed) :
    (∀ o ∈ (ensureMongoServer env address dataDir port w).2.2, o.isFsOp = false) ∧
    (ensureMongoServer env address dataDir port w).2.1.fs = w.fs := by
  have hneq : makeServiceName mongoScriptVersion ≠ oldMongoServiceName := by decide
  unfold ensureMongoServer
  dsimp only
  rw [removeOld_current]
  rcases hsr : stopAndRemove env oldMongoServiceName w with ⟨r, wa, ta⟩
  have hta : ta = [Op.stopAndRemove oldMongoServiceName] := by
    have := stopAndRemove_trace env oldMongoServiceName w
    rw [hsr] at this; exact this
  have hfs : wa.fs = w.fs := by
    have := stopAndRemove_fs env oldMongoServiceName w
    rw [hsr] at this; exact this
  cases r with
  | error e =>
    dsimp only
    subst hta
    exact ⟨by intro o ho; simp at ho; rw [ho]; rfl, hfs⟩
  | ok u =>
    cases u
    dsimp only
    have hmem : makeServiceName mongoScriptVersion ∈ wa.installed := by
      have := (stopAndRemove_mem_iff env oldMongoServiceName w _ hneq).1
      rw [hsr] at this
      exact this.mpr h
    have hpn : (mongoUpstartService (makeServiceName mongoScriptVersion) dataDir
        (dataDir ++ "/db") port).name = makeServiceName mongoScriptVersion := rfl
    rw [hpn, installPhase_skip env _ _ wa ((contains_iff _ _).mpr hmem)]
    dsimp only
    rcases hsp : startPhase env (makeServiceName mongoScriptVersion) wa with ⟨r3, w3, t3⟩
    have ht3 : ∀ o ∈ t3, o = Op.start (makeServiceName mongoScriptVersion) := by
      intro o ho
      have := startPhase_trace_ops env (makeServiceName mongoScriptVersion) wa o
      rw [hsp] at this; exact this ho
    have hfs3 : w3.fs = wa.fs := by
      have := startPhase_fs env (makeServiceName mongoScriptVersion) wa
      rw [hsp] at this; exact this
    cases r3 with
    | error e =>
      dsimp only
      refine ⟨?_, hfs3.trans hfs⟩
      intro o ho
      rw [hta] at ho
      simp at ho
      rcases ho with rfl | ho
      · rfl
      · rw [ht3 o ho]; rfl
    | ok u =>
      cases u
      dsimp only
      rcases hi4 : initiateReplicaSet env address port w3 with ⟨r4, w4, t4⟩
      have ht4 : ∀ o ∈ t4, o = Op.dial ∨ o = Op.currentConfig ∨ ∃ ad rs, o = Op.initiate ad rs := by
        intro o ho
        have := initiateReplicaSet_trace_ops env address port w3 o
        rw [hi4] at this; exact this ho
      have hfs4 : w4.fs = w3.fs := by
        have := (initiateReplicaSet_preserves env address port w3).2.2
        rw [hi4] at this; exact this
      have hcommon : ∀ o ∈ ta ++ [] ++ t3 ++ t4, Op.isFsOp o = false := by
        intro o ho
        rw [hta] at ho
        simp at ho
        rcases ho with rfl | ho | ho
        · rfl
        · rw [ht3 o ho]; rfl
        · rcases ht4 o ho with rfl | rfl | ⟨ad, rs, rfl⟩ <;> rfl
      cases r4 with
      | error e =>
        dsimp only
        exact ⟨hcommon, (hfs4.trans hfs3).trans hfs⟩
      | ok u =>
        cases u
        dsimp only
        exact ⟨hcommon, (hfs4.trans hfs3).trans hfs⟩

def wC7 : World :=
  { installed := ["juju-db-v2"], running := [], rsConfigured := false,
    fs := { dirs := [("/keep", 448)], files := [] } }

theorem ensureMongoServer_journal_only_when_not_installed_witness :
    Op.isFsOp (Op.stopAndRemove "juju-db") = false ∧
    (ensureMongoServer envAll "10.0.0.1" "/var/lib/x" 37017 wC7).2.1.fs = wC7.fs :=
  ⟨(ensureMongoServer_journal_only_when_not_installed envAll "10.0.0.1" "/var/lib/x" 37017 wC7
      (by decide)).1 (Op.stopAndRemove "juju-db") (by decide),
   (ensureMongoServer_journal_only_when_not_installed envAll "10.0.0.1" "/var/lib/x" 37017 wC7
      (by decide)).2⟩

/-! ## C2: a second convergence on a converged node is a no-op -/

/-- C2: invoking `ensureMongoServer` on a node where convergence already fully
succeeded — the current service definition installed, the service running, the
replica-set configuration present — performs zero install, start, or initiate
operations: no such operation appears in the execution trace. -/
theorem ensureMongoServer_idempotent (env : Env) (address dataDir : String)
    (port : Nat) (w : World)
    (h1 : makeServiceName mongoScriptVersion ∈ w.installed)
    (h2 : makeServiceName mongoScriptVersion ∈ w.running)
    (h3 : w.rsConfigured = true) :
    ∀ o ∈ (ensureMongoServer env address dataDir port w).2.2,
      o.isInstall = false ∧ o.isStart = false ∧ o.isInitiate = false := by
  have hneq : makeServiceName mongoScriptVersion ≠ oldMongoServiceName := by decide
  unfold ensureMongoServer
  dsimp only
  rw [removeOld_current]
  rcases hsr : stopAndRemove env oldMongoServiceName w with ⟨r, wa, ta⟩
  have hta : ta = [Op.stopAndRemove oldMongoServiceName] := by
    have := stopAndRemove_trace env oldMongoServiceName w
    rw [hsr] at this; exact this
  cases r with
  | error e =>
    dsimp only
    subst hta
    intro o ho
    simp at ho
    rw [ho]
    exact ⟨rfl, rfl, rfl⟩
  | ok u =>
    cases u
    dsimp only
    have hmemI : makeServiceName mongoScriptVersion ∈ wa.installed := by
      have := (stopAndRemove_mem_iff env oldMongoServiceName w _ hneq).1
      rw [hsr] at this
      exact this.mpr h1
    have hmemR : makeServiceName mongoScriptVersion ∈ wa.running := by
      have := (stopAndRemove_mem_iff env oldMongoServiceName w _ hneq).2
      rw [hsr] at this
      exact this.mpr h2
    have hrs : wa.rsConfigured = true := by
      have := stopAndRemove_rs env oldMongoServiceName w
      rw [hsr] at this
      exact this.trans h3
    have hpn : (mongoUpstartService (makeServiceName mongoScriptVersion) dataDir
        (dataDir ++ "/db") port).name = makeServiceName mongoScriptVersion := rfl
    rw [hpn, installPhase_skip env _ _ wa ((contains_iff _ _).mpr hmemI)]
    dsimp only
    rw [startPhase_skip env _ wa ((contains_iff _ _).mpr hmemR)]
    dsimp only
    rcases hi4 : initiateReplicaSet env address port wa with ⟨r4, w4, t4⟩
    have ht4 : ∀ o ∈ t4, o = Op.dial ∨ o = Op.currentConfig := by
      intro o ho
      have := initiateReplicaSet_no_initiate_of_configured env address port wa hrs o
      rw [hi4] at this
      exact this ho
    have hcommon : ∀ o ∈ ta ++ [] ++ [] ++ t4,
        Op.isInstall o = false ∧ Op.isStart o = false ∧ Op.isInitiate o = false := by
      intro o ho
      rw [hta] at ho
      simp at ho
      rcases ho with rfl | ho
      · exact ⟨rfl, rfl, rfl⟩
      · rcases ht4 o ho with rfl | rfl <;> exact ⟨rfl, rfl, rfl⟩
    cases r4 with
    | error e => dsimp only; exact hcommon
    | ok u => cases u; dsimp only; exact hcommon

theorem ensureMongoServer_idempotent_witness :
    Op.isInstall (Op.stopAndRemove "juju-db") = false ∧
    Op.isStart (Op.stopAndRemove "juju-db") = false ∧
    Op.isInitiate (Op.stopAndRemove "juju-db") = false :=
  ensureMongoServer_idempotent envAll "10.0.0.1" "/var/lib/x" 37017 wConv
    (by decide) (by decide) rfl (Op.stopAndRemove "juju-db") (by decide)

theorem fsOp_class (o : Op) (h : o.isFsOp = true) :
    Op.isInstall o = false ∧ Op.isStart o = false ∧ Op.isInitiate o = false ∧
    o ≠ Op.currentConfig ∧ o ≠ Op.dial := by
  cases o <;> simp_all [Op.isFsOp, Op.isInstall, Op.isStart, Op.isInitiate]

/-- When the definition is not yet installed, the install phase runs the
journal preallocator and then the supervisor install. -/
theorem installPhase_go (env : Env) (name dbDir : String) (w : World)
    (h : w.installed.contains name = false) :
    installPhase env name dbDir w =
      (match makeJournalDirs env dbDir w.fs with
       | (Except.error e, fs2, tj) =>
           (Except.error ("Error creating journal directories: " ++ e),
            { w with fs := fs2 }, tj)
       | (Except.ok _, fs2, tj) =>
         match env.installErr name with
         | some e =>
             (Except.error ("failed to install mongo service " ++
                goQuote name ++ ": " ++ e),
              { w with fs := fs2 }, tj ++ [Op.install name])
         | none =>
             (Except.ok (),
              { w with fs := fs2, installed := name :: w.installed },
              tj ++ [Op.install name])) := by
  unfold installPhase
  rw [h]
  rfl

/-! ## C3: the convergence entry point short-circuits on first failure -/

/-- C3: for every execution in which the supervisor install step is attempted
and fails (the install operation appears in the trace while the install oracle
rejects the current name), no start and no initiate operation appears anywhere
in the trace; and for every execution under a failing dial oracle, no
configuration query and no initiate operation appears in the trace. -/
theorem ensureMongoServer_shortCircuits (env : Env) (address dataDir : String)
    (port : Nat) (w : World) :
    ((∃ e, env.installErr (makeServiceName mongoScriptVersion) = some e) →
      Op.install (makeServiceName mongoScriptVersion) ∈
        (ensureMongoServer env address dataDir port w).2.2 →
      ∀ o ∈ (ensureMongoServer env address dataDir port w).2.2,
        o.isStart = false ∧ o.isInitiate = false) ∧
    ((∃ e, env.dialErr = some e) →
      ∀ o ∈ (ensureMongoServer env address dataDir port w).2.2,
        o ≠ Op.currentConfig ∧ o.isInitiate = false) := by
  unfold ensureMongoServer
  dsimp only
  rw [removeOld_current]
  rcases hsr : stopAndRemove env oldMongoServiceName w with ⟨r, wa, ta⟩
  have hta : ta = [Op.stopAndRemove oldMongoServiceName] := by
    have := stopAndRemove_trace env oldMongoServiceName w
    rw [hsr] at this; exact this
  cases r with
  | error e =>
    dsimp only
    subst hta
    constructor
    · intro _ hmem
      simp at hmem
    · intro _ o ho
      simp at ho
      rw [ho]
      exact ⟨by simp, rfl⟩
  | ok u =>
    cases u
    dsimp only
    have hpn : (mongoUpstartService (makeServiceName mongoScriptVersion) dataDir
        (dataDir ++ "/db") port).name = makeServiceName mongoScriptVersion := rfl
    rw [hpn]
    cases hcont : wa.installed.contains (makeServiceName mongoScriptVersion) with
    | true =>
      rw [installPhase_skip env _ _ wa hcont]
      dsimp only
      rcases hsp : startPhase env (makeServiceName mongoScriptVersion) wa with ⟨r3, w3, t3⟩
      have ht3 : ∀ o ∈ t3, o = Op.start (makeServiceName mongoScriptVersion) := by
        intro o ho
        have := startPhase_trace_ops env (makeServiceName mongoScriptVersion) wa o
        rw [hsp] at this; exact this ho
      cases r3 with
      | error e =>
        dsimp only
        constructor
        · intro _ hmem
          rw [hta] at hmem
          simp at hmem
          have := ht3 _ hmem
          simp at this
        · intro _ o ho
          rw [hta] at ho
          simp at ho
          rcases ho with rfl | ho
          · exact ⟨by simp, rfl⟩
          · rw [ht3 o ho]
            exact ⟨by simp, rfl⟩
      | ok u =>
        cases u
        dsimp only
        rcases hi4 : initiateReplicaSet env address port w3 with ⟨r4, w4, t4⟩
        have ht4 : ∀ o ∈ t4, o = Op.dial ∨ o = Op.currentConfig ∨
            ∃ ad rs, o = Op.initiate ad rs := by
          intro o ho
          have := initiateReplicaSet_trace_ops env address port w3 o
          rw [hi4] at this; exact this ho
        have hpart1 : Op.install (makeServiceName mongoScriptVersion) ∈
            ta ++ [] ++ t3 ++ t4 → False := by
          intro hmem
          rw [hta] at hmem
          simp at hmem
          rcases hmem with hmem | hmem
          · have := ht3 _ hmem
            simp at this
          · rcases ht4 _ hmem with h5 | h5 | ⟨ad, rs, h5⟩ <;> simp at h5
        cases r4 with
        | error e =>
          dsimp only
          constructor
          · intro _ hmem
            exact absurd hmem hpart1
          · rintro ⟨e2, hd⟩ o ho
            have ht4d : t4 = [Op.dial] := by
              have hrun := initiateReplicaSet_dial_some env address port w3 e2 hd
              rw [hi4] at hrun
              simp only [Prod.mk.injEq] at hrun
              exact hrun.2.2
            rw [hta, ht4d] at ho
            simp at ho
            rcases ho with rfl | ho | rfl
            · exact ⟨by simp, rfl⟩
            · rw [ht3 o ho]; exact ⟨by simp, rfl⟩
            · exact ⟨by simp, rfl⟩
        | ok u =>
          cases u
          dsimp only
          constructor
          · intro _ hmem
            exact absurd hmem hpart1
          · rintro ⟨e2, hd⟩ o ho
            have hrun := initiateReplicaSet_dial_some env address port w3 e2 hd
            rw [hi4] at hrun
            simp at hrun
    | false =>
      rw [installPhase_go env _ _ wa hcont]
      rcases hj : makeJournalDirs env (dataDir ++ "/db") wa.fs with ⟨rj, fs2, tj⟩
      have htj : ∀ o ∈ tj, o.isFsOp = true := by
        intro o ho
        have := makeJournalDirs_trace_fsOp env (dataDir ++ "/db") wa.fs o
        rw [hj] at this; exact this ho
      cases rj with
      | error e =>
        dsimp only
        constructor
        · intro _ hmem
          rw [hta] at hmem
          simp at hmem
          have := (fsOp_class _ (htj _ hmem)).1
          simp [Op.isInstall] at this
        · intro _ o ho
          rw [hta] at ho
          simp at ho
          rcases ho with rfl | ho
          · exact ⟨by simp, rfl⟩
          · obtain ⟨-, -, h1, h2, -⟩ := fsOp_class o (htj o ho)
            exact ⟨h2, h1⟩
      | ok u =>
        cases u
        dsimp only
        cases hie : env.installErr (makeServiceName mongoScriptVersion) with
        | some e =>
          dsimp only
          have hclass : ∀ o ∈ ta ++ (tj ++ [Op.install (makeServiceName mongoScriptVersion)]),
              o.isStart = false ∧ o.isInitiate = false ∧ o ≠ Op.currentConfig := by
            intro o ho
            rw [hta] at ho
            simp at ho
            rcases ho with rfl | ho | rfl
            · exact ⟨rfl, rfl, by simp⟩
            · obtain ⟨-, h1, h2, h3, -⟩ := fsOp_class o (htj o ho)
              exact ⟨h1, h2, h3⟩
            · exact ⟨rfl, rfl, by simp⟩
          constructor
          · intro _ _ o ho
            obtain ⟨h1, h2, -⟩ := hclass o ho
            exact ⟨h1, h2⟩
          · intro _ o ho
            obtain ⟨-, h2, h3⟩ := hclass o ho
            exact ⟨h3, h2⟩
        | none =>
          dsimp only
          rcases hsp : startPhase env (makeServiceName mongoScriptVersion) ({ wa with fs := fs2, installed := makeServiceName mongoScriptVersion :: wa.installed }) with ⟨r3, w3, t3⟩
          have ht3 : ∀ o ∈ t3, o = Op.start (makeServiceName mongoScriptVersion) := by
            intro o ho
            have := startPhase_trace_ops env (makeServiceName mongoScriptVersion) ({ wa with fs := fs2, installed := makeServiceName mongoScriptVersion :: wa.installed }) o
            rw [hsp] at this; exact this ho
          cases r3 with
          | error e =>
            dsimp only
            constructor
            · rintro ⟨e2, he⟩ _
              cases he
            · intro _ o ho
              rw [hta] at ho
              simp at ho
              rcases ho with rfl | ho | rfl | ho
              · exact ⟨by simp, rfl⟩
              · obtain ⟨-, -, h1, h2, -⟩ := fsOp_class o (htj o ho)
                exact ⟨h2, h1⟩
              · exact ⟨by simp, rfl⟩
              · rw [ht3 o ho]; exact ⟨by simp, rfl⟩
          | ok u =>
            cases u
            dsimp only
            rcases hi4 : initiateReplicaSet env address port w3 with ⟨r4, w4, t4⟩
            have hdialcase : ∀ e2, env.dialErr = some e2 →
                ∀ o ∈ ta ++ (tj ++ [Op.install (makeServiceName mongoScriptVersion)]) ++
                  t3 ++ [Op.dial], o ≠ Op.currentConfig ∧ o.isInitiate = false := by
              intro e2 hd o ho
              rw [hta] at ho
              simp at ho
              rcases ho with rfl | ho | rfl | ho | rfl
              · exact ⟨by simp, rfl⟩
              · obtain ⟨-, -, h1, h2, -⟩ := fsOp_class o (htj o ho)
                exact ⟨h2, h1⟩
              · exact ⟨by simp, rfl⟩
              · rw [ht3 o ho]; exact ⟨by simp, rfl⟩
              · exact ⟨by simp, rfl⟩
            cases r4 with
            | error e =>
              dsimp only
              constructor
              · rintro ⟨e2, he⟩ _
                cases he
              · rintro ⟨e2, hd⟩ o ho
                have ht4d : t4 = [Op.dial] := by
                  have hrun := initiateReplicaSet_dial_some env address port w3 e2 hd
                  rw [hi4] at hrun
                  simp only [Prod.mk.injEq] at hrun
                  exact hrun.2.2
                rw [ht4d] at ho
                exact hdialcase e2 hd o ho
            | ok u =>
              cases u
              dsimp only
              constructor
              · rintro ⟨e2, he⟩ _
                cases he
              · rintro ⟨e2, hd⟩ o ho
                have hrun := initiateReplicaSet_dial_some env address port w3 e2 hd
                rw [hi4] at hrun
                simp at hrun

def envC3 : Env :=
  { envAll with installErr := fun _ => some "install refused" }

theorem ensureMongoServer_shortCircuits_witness :
    Op.isStart (Op.stopAndRemove "juju-db") = false ∧
    Op.isInitiate (Op.stopAndRemove "juju-db") = false :=
  (ensureMongoServer_shortCircuits envC3 "10.0.0.1" "/var/lib/x" 37017 wFresh).1
    ⟨"install refused", rfl⟩ (by decide) (Op.stopAndRemove "juju-db") (by decide)

/-! ## Write-loop lemmas -/

theorem string_append_cancel (a b c : String) (h : a ++ b = a ++ c) : b = c := by
  have := congrArg String.data h
  simp [String.data_append] at this
  exact String.ext this

/-- On any successful run, the write loop stops only once at least 1 MiB has
been reported written, and everything it appended to the file is zeros. -/
theorem writeLoop_ok_general (env : Env) (f : String)
    (hio : ∀ i n, env.writeRes f i = WriteRes.ok n → n ≤ 64 * 1024) :
    ∀ (fuel idx total : Nat) (data : List Nat) (u : Unit) (data1 : List Nat)
      (total1 : Nat) (t : List Op),
      writeLoop env f fuel idx total data = (Except.ok u, data1, total1, t) →
      1024 * 1024 ≤ total1 ∧ total ≤ total1 ∧
      data1 = data ++ List.replicate (total1 - total) 0 := by
  intro fuel
  induction fuel with
  | zero => intro idx total data u d1 t1 t h; simp [writeLoop] at h
  | succ fuel ih =>
    intro idx total data u d1 tt1 t h
    simp only [writeLoop] at h
    split at h
    · next hlt =>
      cases hw : env.writeRes f idx with
      | fail e => rw [hw] at h; simp at h
      | ok n =>
        rw [hw] at h
        dsimp only at h
        rcases hrec : writeLoop env f fuel (idx + 1) (total + n) (data ++ zeroes.take n)
          with ⟨r, dr, tr, trc⟩
        rw [hrec] at h
        dsimp only at h
        simp only [Prod.mk.injEq] at h
        obtain ⟨h1, h2, h3, h4⟩ := h
        subst h2
        subst h3
        rw [h1] at hrec
        obtain ⟨hsz, hle, hdata⟩ :=
          ih (idx + 1) (total + n) (data ++ zeroes.take n) u dr tr trc hrec
        have hn : n ≤ 64 * 1024 := hio idx n hw
        have htake : zeroes.take n = List.replicate n 0 := by
          rw [zeroes, List.take_replicate, Nat.min_eq_left hn]
        refine ⟨hsz, by omega, ?_⟩
        rw [hdata, htake, List.append_assoc, ← List.replicate_add]
        congr 2
        omega
    · next hge =>
      simp only [Prod.mk.injEq] at h
      obtain ⟨-, h2, h3, -⟩ := h
      subst h2
      subst h3
      refine ⟨by omega, Nat.le_refl _, ?_⟩
      simp

/-- Concrete run of the write loop when every chunk write reports the full
64 KiB buffer: exactly 16 chunks are written, for exactly 1 MiB of zeros. -/
theorem writeLoop_steps (env : Env) (f : String)
    (hw : ∀ i, env.writeRes f i = WriteRes.ok 65536) :
    ∀ (m idx total : Nat) (data : List Nat) (fuel : Nat),
      total + m * 65536 = 1048576 → m < fuel →
      writeLoop env f fuel idx total data =
        (Except.ok (), data ++ List.replicate (m * 65536) 0, 1048576,
         List.replicate m (Op.write f)) := by
  intro m
  induction m with
  | zero =>
    intro idx total data fuel htot hfuel
    cases fuel with
    | zero => omega
    | succ fuel =>
      simp only [writeLoop]
      rw [if_neg (by omega)]
      simp
      omega
  | succ m ih =>
    intro idx total data fuel htot hfuel
    cases fuel with
    | zero => omega
    | succ fuel =>
      simp only [writeLoop]
      rw [if_pos (by omega), hw idx]
      dsimp only
      rw [ih (idx + 1) (total + 65536) (data ++ zeroes.take 65536) fuel (by omega) (by omega)]
      have htake : zeroes.take 65536 = List.replicate 65536 (0 : Nat) := by
        rw [zeroes, List.take_replicate]
        norm_num
      rw [htake, List.append_assoc, ← List.replicate_add]
      have h2 : (65536 : Nat) + m * 65536 = (m + 1) * 65536 := by ring
      rw [h2, ← List.replicate_succ]

/-- Successful preallocation of one absent file under a conformant write
oracle: the file is created with permission `0700` and at least 1 MiB of
zeros. -/
theorem preallocFile_ok_general (env : Env) (jd : String) (x : Nat) (fs fs1 : Fs)
    (t1 : List Op)
    (hio : ∀ i n, env.writeRes (jd ++ "/prealloc." ++ toString x) i = WriteRes.ok n →
       n ≤ 64 * 1024)
    (hg : fs.getFile (jd ++ "/prealloc." ++ toString x) = none)
    (h : preallocFile env jd x fs = (Except.ok (), fs1, t1)) :
    ∃ sz, 1024 * 1024 ≤ sz ∧
      fs1 = fs.setFile (jd ++ "/prealloc." ++ toString x)
        { perm := 0o700, data := List.replicate sz 0 } := by
  unfold preallocFile at h
  dsimp only at h
  cases hop : env.openErr (jd ++ "/prealloc." ++ toString x) with
  | some e => rw [hop] at h; simp at h
  | none =>
    rw [hop, hg] at h
    dsimp only at h
    rcases hwl : writeLoop env (jd ++ "/prealloc." ++ toString x) (1024 * 1024 + 1) 0 0 []
      with ⟨r, d, tt, tr⟩
    rw [hwl] at h
    dsimp only at h
    simp only [Prod.mk.injEq] at h
    obtain ⟨h1, h2, h3⟩ := h
    subst h2
    rw [h1] at hwl
    obtain ⟨hsz, -, hdata⟩ :=
      writeLoop_ok_general env (jd ++ "/prealloc." ++ toString x) hio
        (1024 * 1024 + 1) 0 0 [] () d tt tr hwl
    refine ⟨tt, hsz, ?_⟩
    rw [hdata]
    simp

/-- Concrete successful preallocation of one absent file when every write
reports the full 64 KiB: exactly 1 MiB of zeros in 16 chunks. -/
theorem preallocFile_run (env : Env) (jd : String) (x : Nat) (fs : Fs)
    (hopen : env.openErr (jd ++ "/prealloc." ++ toString x) = none)
    (hw : ∀ i, env.writeRes (jd ++ "/prealloc." ++ toString x) i = WriteRes.ok 65536)
    (hg : fs.getFile (jd ++ "/prealloc." ++ toString x) = none) :
    preallocFile env jd x fs =
      (Except.ok (), fs.setFile (jd ++ "/prealloc." ++ toString x)
         { perm := 0o700, data := List.replicate 1048576 0 },
       Op.openFile (jd ++ "/prealloc." ++ toString x) ::
         List.replicate 16 (Op.write (jd ++ "/prealloc." ++ toString x))) := by
  unfold preallocFile
  dsimp only
  rw [hopen, hg]
  dsimp only
  rw [writeLoop_steps env (jd ++ "/prealloc." ++ toString x) hw 16 0 0 []
    (1024 * 1024 + 1) (by norm_num) (by norm_num)]
  norm_num

/-! ## C5: what a successful journal preallocation guarantees -/

/-- C5: for every data directory on which `makeJournalDirs` succeeds (starting
from a directory with no files, the state the callers guarantee by gating the
call behind "service not yet installed"), a `journal` subdirectory exists with
owner-only (`0700`) permission, and the filesystem holds exactly 3
preallocation files `prealloc.0`, `prealloc.1`, `prealloc.2`, each consisting
of at least 1 MiB of zero-filled content.  The content is written in 64 KiB
chunks until the 1 MiB threshold is met (the shape of `writeLoop`); the
hypothesis on the write oracle is the `io.Writer` contract that a successful
write never reports more bytes than the buffer holds. -/
theorem makeJournalDirs_spec (env : Env) (dir : String) (fs0 fs1 : Fs) (T : List Op)
    (hio : ∀ f i n, env.writeRes f i = WriteRes.ok n → n ≤ 64 * 1024)
    (hempty : fs0.files = [])
    (hdir : fs0.hasDir (dir ++ "/journal") = false)
    (hs : makeJournalDirs env dir fs0 = (Except.ok (), fs1, T)) :
    (dir ++ "/journal", 0o700) ∈ fs1.dirs ∧
    ∃ n0 n1 n2,
      1024 * 1024 ≤ n0 ∧ 1024 * 1024 ≤ n1 ∧ 1024 * 1024 ≤ n2 ∧
      fs1.files =
        [(dir ++ "/journal" ++ "/prealloc." ++ toString (2 : Nat),
          { perm := 0o700, data := List.replicate n2 0 }),
         (dir ++ "/journal" ++ "/prealloc." ++ toString (1 : Nat),
          { perm := 0o700, data := List.replicate n1 0 }),
         (dir ++ "/journal" ++ "/prealloc." ++ toString (0 : Nat),
          { perm := 0o700, data := List.replicate n0 0 })] := by
  have hne01 : dir ++ "/journal" ++ "/prealloc." ++ toString (0 : Nat) ≠
      dir ++ "/journal" ++ "/prealloc." ++ toString (1 : Nat) := by
    intro he
    exact absurd (string_append_cancel _ _ _ he) (by decide)
  have hne02 : dir ++ "/journal" ++ "/prealloc." ++ toString (0 : Nat) ≠
      dir ++ "/journal" ++ "/prealloc." ++ toString (2 : Nat) := by
    intro he
    exact absurd (string_append_cancel _ _ _ he) (by decide)
  have hne12 : dir ++ "/journal" ++ "/prealloc." ++ toString (1 : Nat) ≠
      dir ++ "/journal" ++ "/prealloc." ++ toString (2 : Nat) := by
    intro he
    exact absurd (string_append_cancel _ _ _ he) (by decide)
  have hb01 : (dir ++ "/journal" ++ "/prealloc." ++ toString (0 : Nat) ==
      dir ++ "/journal" ++ "/prealloc." ++ toString (1 : Nat)) = false := by
    simp [hne01]
  have hb02 : (dir ++ "/journal" ++ "/prealloc." ++ toString (0 : Nat) ==
      dir ++ "/journal" ++ "/prealloc." ++ toString (2 : Nat)) = false := by
    simp [hne02]
  have hb12 : (dir ++ "/journal" ++ "/prealloc." ++ toString (1 : Nat) ==
      dir ++ "/journal" ++ "/prealloc." ++ toString (2 : Nat)) = false := by
    simp [hne12]
  unfold makeJournalDirs at hs
  dsimp only at hs
  cases hmk : env.mkdirErr (dir ++ "/journal") with
  | some e => rw [hmk] at hs; simp at hs
  | none =>
    rw [hmk] at hs
    dsimp only at hs
    rcases hpl : preallocLoop env (dir ++ "/journal") [0, 1, 2]
        (fs0.mkdirAll (dir ++ "/journal") 0o700) with ⟨r, fs2, t⟩
    rw [hpl] at hs
    dsimp only at hs
    simp only [Prod.mk.injEq] at hs
    obtain ⟨hr, hfs2, hT⟩ := hs
    subst hfs2
    subst hr
    have hfsA_files : (fs0.mkdirAll (dir ++ "/journal") 0o700).files = [] := by
      simp [Fs.mkdirAll, hdir, hempty]
    have hfsA_dirs : (fs0.mkdirAll (dir ++ "/journal") 0o700).dirs =
        (dir ++ "/journal", 0o700) :: fs0.dirs := by
      simp [Fs.mkdirAll, hdir]
    simp only [preallocLoop] at hpl
    rcases hp0 : preallocFile env (dir ++ "/journal") 0
        (fs0.mkdirAll (dir ++ "/journal") 0o700) with ⟨r0, fsB, t0⟩
    rw [hp0] at hpl
    cases r0 with
    | error e => dsimp only at hpl; simp at hpl
    | ok u =>
      cases u
      dsimp only at hpl
      rcases hp1 : preallocFile env (dir ++ "/journal") 1 fsB with ⟨r1, fsC, t1⟩
      rw [hp1] at hpl
      cases r1 with
      | error e => dsimp only at hpl; simp at hpl
      | ok u =>
        cases u
        dsimp only at hpl
        rcases hp2 : preallocFile env (dir ++ "/journal") 2 fsC with ⟨r2, fsD, t2⟩
        rw [hp2] at hpl
        cases r2 with
        | error e => dsimp only at hpl; simp at hpl
        | ok u =>
          cases u
          dsimp only at hpl
          simp only [Prod.mk.injEq] at hpl
          obtain ⟨-, hD, -⟩ := hpl
          subst hD
          have hg0 : (fs0.mkdirAll (dir ++ "/journal") 0o700).getFile
              (dir ++ "/journal" ++ "/prealloc." ++ toString (0 : Nat)) = none := by
            simp [Fs.getFile, hfsA_files]
          obtain ⟨n0, hn0, hB⟩ := preallocFile_ok_general env (dir ++ "/journal") 0
            (fs0.mkdirAll (dir ++ "/journal") 0o700) fsB t0
            (fun i n => hio _ i n) hg0 hp0
          have hg1 : fsB.getFile
              (dir ++ "/journal" ++ "/prealloc." ++ toString (1 : Nat)) = none := by
            rw [hB]
            simp [Fs.setFile, Fs.getFile, hfsA_files, List.find?, hb01]
          obtain ⟨n1, hn1, hC⟩ := preallocFile_ok_general env (dir ++ "/journal") 1
            fsB fsC t1 (fun i n => hio _ i n) hg1 hp1
          have hg2 : fsC.getFile
              (dir ++ "/journal" ++ "/prealloc." ++ toString (2 : Nat)) = none := by
            rw [hC, hB]
            simp [Fs.setFile, Fs.getFile, hfsA_files, List.find?, List.eraseP, hb01, hb02, hb12]
          obtain ⟨n2, hn2, hD2⟩ := preallocFile_ok_general env (dir ++ "/journal") 2
            fsC fsD t2 (fun i n => hio _ i n) hg2 hp2
          constructor
          · rw [hD2, hC, hB]
            simp [Fs.setFile, hfsA_dirs]
          · refine ⟨n0, n1, n2, hn0, hn1, hn2, ?_⟩
            rw [hD2, hC, hB]
            simp [Fs.setFile, hfsA_files, List.eraseP, hb01, hb02, hb12]

/-- Concrete successful journal run on an empty data directory with the
all-success oracle: three 1 MiB zero files in 16 chunks each. -/
theorem mj_run :
    makeJournalDirs envAll ("/var/lib/x" ++ "/db") { dirs := [], files := [] } =
      (Except.ok (),
       { dirs := [("/var/lib/x/db/journal", 0o700)],
         files := [("/var/lib/x/db/journal/prealloc.2",
                    { perm := 0o700, data := List.replicate 1048576 0 }),
                   ("/var/lib/x/db/journal/prealloc.1",
                    { perm := 0o700, data := List.replicate 1048576 0 }),
                   ("/var/lib/x/db/journal/prealloc.0",
                    { perm := 0o700, data := List.replicate 1048576 0 })] },
       Op.mkdir "/var/lib/x/db/journal" ::
         Op.openFile "/var/lib/x/db/journal/prealloc.0" ::
           (List.replicate 16 (Op.write "/var/lib/x/db/journal/prealloc.0") ++
            (Op.openFile "/var/lib/x/db/journal/prealloc.1" ::
              (List.replicate 16 (Op.write "/var/lib/x/db/journal/prealloc.1") ++
               (Op.openFile "/var/lib/x/db/journal/prealloc.2" ::
                 List.replicate 16 (Op.write "/var/lib/x/db/journal/prealloc.2")))))) := by
  have h0 := preallocFile_run envAll ("/var/lib/x" ++ "/db" ++ "/journal") 0
    (Fs.mkdirAll { dirs := [], files := [] } ("/var/lib/x" ++ "/db" ++ "/journal") 0o700)
    rfl (fun i => rfl) rfl
  have h1 := preallocFile_run envAll ("/var/lib/x" ++ "/db" ++ "/journal") 1
    ((Fs.mkdirAll { dirs := [], files := [] } ("/var/lib/x" ++ "/db" ++ "/journal") 0o700).setFile
      ("/var/lib/x" ++ "/db" ++ "/journal" ++ "/prealloc." ++ toString (0 : Nat))
      { perm := 0o700, data := List.replicate 1048576 0 })
    rfl (fun i => rfl) rfl
  have h2 := preallocFile_run envAll ("/var/lib/x" ++ "/db" ++ "/journal") 2
    (((Fs.mkdirAll { dirs := [], files := [] } ("/var/lib/x" ++ "/db" ++ "/journal") 0o700).setFile
      ("/var/lib/x" ++ "/db" ++ "/journal" ++ "/prealloc." ++ toString (0 : Nat))
      { perm := 0o700, data := List.replicate 1048576 0 }).setFile
      ("/var/lib/x" ++ "/db" ++ "/journal" ++ "/prealloc." ++ toString (1 : Nat))
      { perm := 0o700, data := List.replicate 1048576 0 })
    rfl (fun i => rfl) rfl
  have ht0 : toString (0 : Nat) = "0" := rfl
  have ht1 : toString (1 : Nat) = "1" := rfl
  have ht2 : toString (2 : Nat) = "2" := rfl
  set big := List.replicate 1048576 (0 : Nat) with hbig
  simp [envAll, Fs.mkdirAll, Fs.hasDir, Fs.setFile, Fs.getFile, List.eraseP,
    ht0, ht1, ht2] at h0 h1 h2
  simp [makeJournalDirs, preallocLoop, envAll, Fs.mkdirAll, Fs.hasDir, Fs.setFile,
    List.eraseP, ht0, ht1, ht2, h0, h1, h2]

theorem makeJournalDirs_spec_witness :
    ("/var/lib/x" ++ "/db" ++ "/journal", 0o700) ∈
      (Fs.mk [("/var/lib/x/db/journal", 0o700)]
        [("/var/lib/x/db/journal/prealloc.2",
          { perm := 0o700, data := List.replicate 1048576 0 }),
         ("/var/lib/x/db/journal/prealloc.1",
          { perm := 0o700, data := List.replicate 1048576 0 }),
         ("/var/lib/x/db/journal/prealloc.0",
          { perm := 0o700, data := List.replicate 1048576 0 })]).dirs ∧
    ∃ n0 n1 n2,
      1024 * 1024 ≤ n0 ∧ 1024 * 1024 ≤ n1 ∧ 1024 * 1024 ≤ n2 ∧
      (Fs.mk [("/var/lib/x/db/journal", 0o700)]
        [("/var/lib/x/db/journal/prealloc.2",
          { perm := 0o700, data := List.replicate 1048576 0 }),
         ("/var/lib/x/db/journal/prealloc.1",
          { perm := 0o700, data := List.replicate 1048576 0 }),
         ("/var/lib/x/db/journal/prealloc.0",
          { perm := 0o700, data := List.replicate 1048576 0 })]).files =
        [("/var/lib/x" ++ "/db" ++ "/journal" ++ "/prealloc." ++ toString (2 : Nat),
          { perm := 0o700, data := List.replicate n2 0 }),
         ("/var/lib/x" ++ "/db" ++ "/journal" ++ "/prealloc." ++ toString (1 : Nat),
          { perm := 0o700, data := List.replicate n1 0 }),
         ("/var/lib/x" ++ "/db" ++ "/journal" ++ "/prealloc." ++ toString (0 : Nat),
          { perm := 0o700, data := List.replicate n0 0 })] :=
  makeJournalDirs_spec envAll ("/var/lib/x" ++ "/db") { dirs := [], files := [] }
    (Fs.mk [("/var/lib/x/db/journal", 0o700)]
      [("/var/lib/x/db/journal/prealloc.2",
        { perm := 0o700, data := List.replicate 1048576 0 }),
       ("/var/lib/x/db/journal/prealloc.1",
        { perm := 0o700, data := List.replicate 1048576 0 }),
       ("/var/lib/x/db/journal/prealloc.0",
        { perm := 0o700, data := List.replicate 1048576 0 })])
    (Op.mkdir "/var/lib/x/db/journal" ::
      Op.openFile "/var/lib/x/db/journal/prealloc.0" ::
        (List.replicate 16 (Op.write "/var/lib/x/db/journal/prealloc.0") ++
         (Op.openFile "/var/lib/x/db/journal/prealloc.1" ::
           (List.replicate 16 (Op.write "/var/lib/x/db/journal/prealloc.1") ++
            (Op.openFile "/var/lib/x/db/journal/prealloc.2" ::
              List.replicate 16 (Op.write "/var/lib/x/db/journal/prealloc.2"))))))
    (fun f i n h => by simp [envAll] at h; omega)
    rfl rfl mj_run

/-- Concrete full convergence run for the end-to-end scenario: request
`{address: "10.0.0.1", dataDir: "/var/lib/x", port: 37017}` on a pristine
node with the all-success oracle. -/
theorem run8 :
    ensureMongoServer envAll "10.0.0.1" "/var/lib/x" 37017 wFresh =
      (Except.ok (),
       { installed := ["juju-db-v2"], running := ["juju-db-v2"], rsConfigured := true,
         fs := { dirs := [("/var/lib/x/db/journal", 0o700)],
                 files := [("/var/lib/x/db/journal/prealloc.2",
                            { perm := 0o700, data := List.replicate 1048576 0 }),
                           ("/var/lib/x/db/journal/prealloc.1",
                            { perm := 0o700, data := List.replicate 1048576 0 }),
                           ("/var/lib/x/db/journal/prealloc.0",
                            { perm := 0o700, data := List.replicate 1048576 0 })] } },
       Op.stopAndRemove "juju-db" ::
         Op.mkdir "/var/lib/x/db/journal" ::
           Op.openFile "/var/lib/x/db/journal/prealloc.0" ::
             (List.replicate 16 (Op.write "/var/lib/x/db/journal/prealloc.0") ++
              (Op.openFile "/var/lib/x/db/journal/prealloc.1" ::
                (List.replicate 16 (Op.write "/var/lib/x/db/journal/prealloc.1") ++
                 (Op.openFile "/var/lib/x/db/journal/prealloc.2" ::
                   (List.replicate 16 (Op.write "/var/lib/x/db/journal/prealloc.2") ++
                    [Op.install "juju-db-v2", Op.start "juju-db-v2",
                     Op.dial, Op.currentConfig,
                     Op.initiate "10.0.0.1:37017" "juju"])))))) := by
  have ht2 : toString (2 : Nat) = "2" := rfl
  have htp : toString (37017 : Nat) = "37017" := rfl
  unfold ensureMongoServer
  dsimp only
  rw [removeOld_current]
  rw [show stopAndRemove envAll oldMongoServiceName wFresh =
    (Except.ok (), wFresh, [Op.stopAndRemove oldMongoServiceName]) from rfl]
  dsimp only
  rw [show (mongoUpstartService (makeServiceName mongoScriptVersion) "/var/lib/x"
      ("/var/lib/x" ++ "/db") 37017).name = makeServiceName mongoScriptVersion from rfl]
  rw [installPhase_go envAll (makeServiceName mongoScriptVersion) ("/var/lib/x" ++ "/db")
    wFresh rfl]
  rw [show wFresh.fs = ({ dirs := [], files := [] } : Fs) from rfl]
  rw [mj_run]
  dsimp only
  rw [show envAll.installErr (makeServiceName mongoScriptVersion) = none from rfl]
  dsimp only
  set big := List.replicate 1048576 (0 : Nat) with hbig
  simp [startPhase, initiateReplicaSet, envAll, wFresh, oldMongoServiceName,
    makeServiceName, mongoScriptVersion, replicaSetName, ht2, htp]

set_option maxRecDepth 8192 in
/-- C8: end-to-end scenario.  On the request `{address: "10.0.0.1", dataDir:
"/var/lib/x", port: 37017}` with an empty data directory, current version 2
and no existing services, convergence: removes nothing (every `StopAndRemove`
request targets a service that is neither installed nor running, which the
supervisor contract makes a no-op); creates exactly the 3 preallocation files,
each 1 MiB of zeros; installs and starts exactly one service definition named
`juju-db-v2` (the base name with version suffix v2) whose command line
contains `--port 37017` and `--replSet juju`; performs exactly one
configuration query — which reports not-found, since the cluster starts
unconfigured — and exactly one initiate call with seed `10.0.0.1:37017`; and
returns overall success with the replica set established. -/
theorem ensureMongoServer_endToEnd :
    (ensureMongoServer envAll "10.0.0.1" "/var/lib/x" 37017 wFresh).1 = Except.ok () ∧
    (∀ n, Op.stopAndRemove n ∈ (ensureMongoServer envAll "10.0.0.1" "/var/lib/x" 37017 wFresh).2.2 →
       ¬ n ∈ wFresh.installed ∧ ¬ n ∈ wFresh.running) ∧
    (ensureMongoServer envAll "10.0.0.1" "/var/lib/x" 37017 wFresh).2.1.fs.files =
      [("/var/lib/x/db/journal/prealloc.2", { perm := 0o700, data := List.replicate 1048576 0 }),
       ("/var/lib/x/db/journal/prealloc.1", { perm := 0o700, data := List.replicate 1048576 0 }),
       ("/var/lib/x/db/journal/prealloc.0", { perm := 0o700, data := List.replicate 1048576 0 })] ∧
    (ensureMongoServer envAll "10.0.0.1" "/var/lib/x" 37017 wFresh).2.2.count
      (Op.install (makeServiceName mongoScriptVersion)) = 1 ∧
    (ensureMongoServer envAll "10.0.0.1" "/var/lib/x" 37017 wFresh).2.2.count
      (Op.start (makeServiceName mongoScriptVersion)) = 1 ∧
    makeServiceName mongoScriptVersion = "juju-db-v2" ∧
    (ensureMongoServer envAll "10.0.0.1" "/var/lib/x" 37017 wFresh).2.2.count
      Op.currentConfig = 1 ∧
    wFresh.rsConfigured = false ∧
    (ensureMongoServer envAll "10.0.0.1" "/var/lib/x" 37017 wFresh).2.2.count
      (Op.initiate "10.0.0.1:37017" replicaSetName) = 1 ∧
    "juju-db-v2" ∈ (ensureMongoServer envAll "10.0.0.1" "/var/lib/x" 37017 wFresh).2.1.installed ∧
    "juju-db-v2" ∈ (ensureMongoServer envAll "10.0.0.1" "/var/lib/x" 37017 wFresh).2.1.running ∧
    (ensureMongoServer envAll "10.0.0.1" "/var/lib/x" 37017 wFresh).2.1.rsConfigured = true ∧
    strHas (mongoUpstartService (makeServiceName mongoScriptVersion) "/var/lib/x"
      ("/var/lib/x" ++ "/db") 37017).cmd (" --port " ++ toString (37017 : Nat)) ∧
    strHas (mongoUpstartService (makeServiceName mongoScriptVersion) "/var/lib/x"
      ("/var/lib/x" ++ "/db") 37017).cmd (" --replSet " ++ replicaSetName) := by
  refine ⟨?_, ?_, ?_, ?_, ?_, rfl, ?_, rfl, ?_, ?_, ?_, ?_, ?_, ?_⟩
  · rw [run8]
  · intro n hn
    rw [run8] at hn
    simp [List.mem_replicate] at hn
    subst hn
    exact ⟨by simp [wFresh], by simp [wFresh]⟩
  · rw [run8]
  · rw [run8]; decide
  · rw [run8]; decide
  · rw [run8]; decide
  · rw [run8]; decide
  · rw [run8]; simp
  · rw [run8]; simp
  · rw [run8]
  · exact ⟨"/usr/bin/mongod --auth --dbpath=/var/lib/x/db --sslOnNormalPorts --sslPEMKeyFile \x27/var/lib/x/server.pem\x27 --sslPEMKeyPassword ignored --bind_ip 0.0.0.0",
      " --noprealloc --syslog --smallfiles --replSet juju", by decide⟩
  · exact ⟨"/usr/bin/mongod --auth --dbpath=/var/lib/x/db --sslOnNormalPorts --sslPEMKeyFile \x27/var/lib/x/server.pem\x27 --sslPEMKeyPassword ignored --bind_ip 0.0.0.0 --port 37017 --noprealloc --syslog --smallfiles",
      "", by decide⟩

end Mongo
